import Mathlib

/-!
# Outgoing transfer registry (libuavcan)

A shallow embedding of `uavcan/transport/outgoing_transfer_registry.hpp`:
the registry key, the registry value, the expiry predicate and the two
registry operations `accessOrCreate` and `cleanup`.

Conventions of the embedding.

* A C++ pointer into the store (`Value*`, `TransferID*`) is the position of the
  entry it points to; `NULL` is `none`.
* A function that contains an `assert` returns an `Option`: `none` means that an
  assertion failed, `some x` that every assertion passed and the function
  produced `x`.
* The collaborators that the header includes but that are not part of the
  sources at hand (time stamps, identifiers, the `Map` container and its
  allocator) are modelled from the specification; each such definition says so.
-/

namespace uavcan

/-! ## Collaborator value types -/

/-- Modelled from the spec: the monotonic timestamp of `uavcan/time.hpp`, which is
not among the sources. It is totally ordered, comparable, and has a distinguished
zero value meaning "unset". -/
structure MonotonicTime where
  usec : Nat
deriving DecidableEq, Repr

/-- Modelled from the spec: `MonotonicTime::isZero`, the test for the distinguished
zero ("unset") timestamp. -/
def MonotonicTime.isZero (t : MonotonicTime) : Bool := t.usec == 0

/-- Modelled from the spec: `MonotonicTime::operator<=`, the total order used for
expiry. -/
def MonotonicTime.le (a b : MonotonicTime) : Bool := decide (a.usec ≤ b.usec)

/-- Modelled from the spec: the default-constructed timestamp is the zero
timestamp. -/
def MonotonicTime.zero : MonotonicTime := ⟨0⟩

/-- Modelled from the spec: the transfer ID of `uavcan/transport/transfer.hpp`, a
wrapping unsigned sequence counter. Only its stored value matters here. -/
structure TransferID where
  value : Nat
deriving DecidableEq, Repr

/-- Modelled from the spec: the default-constructed `TransferID`, the starting
sequence value. -/
def TransferID.default : TransferID := ⟨0⟩

/-- Modelled from the spec: the small unsigned data type identifier of
`uavcan/transport/transfer.hpp`. -/
structure DataTypeID where
  value : Nat
deriving DecidableEq, Repr

/-- Modelled from the spec: `DataTypeID::operator==`. -/
def DataTypeID.beq (a b : DataTypeID) : Bool := a.value == b.value

/-- Modelled from the spec: the node identifier of
`uavcan/transport/transfer.hpp`. -/
structure NodeID where
  value : Nat
deriving DecidableEq, Repr

/-- Modelled from the spec: the broadcast marker, the node identifier that denotes
"no specific destination". -/
def NodeID.Broadcast : NodeID := ⟨0⟩

/-- Modelled from the spec: `NodeID::isBroadcast`, true exactly for the broadcast
marker. -/
def NodeID.isBroadcast (n : NodeID) : Bool := n.value == NodeID.Broadcast.value

/-- Modelled from the spec: `NodeID::operator==`. -/
def NodeID.beq (a b : NodeID) : Bool := a.value == b.value

/-- Modelled from the spec: the transfer categories of
`uavcan/transport/transfer.hpp` that the header and the specification name. -/
inductive TransferType where
  | TransferTypeServiceResponse
  | TransferTypeServiceRequest
  | TransferTypeMessageBroadcast
deriving DecidableEq, Repr

/-- Modelled from the spec: the integer value of an enumerator, as stored in the
`uint8_t` member of the key. The enumerators are numbered in the order above;
all that is used of the numbering is that it is one-to-one and below `0xFF`. -/
def TransferType.toUInt8 : TransferType → Nat
  | .TransferTypeServiceResponse => 0
  | .TransferTypeServiceRequest => 1
  | .TransferTypeMessageBroadcast => 2

/-! ## The registry key -/

/-- The class `OutgoingTransferRegistryKey`: the three packed members. -/
structure OutgoingTransferRegistryKey where
  data_type_id_ : DataTypeID
  transfer_type_ : Nat
  destination_node_id_ : NodeID
deriving DecidableEq, Repr

namespace OutgoingTransferRegistryKey

/-- The default constructor: it sets `transfer_type_` to `0xFF` and default-constructs
the other two members, whose default values are taken as arguments. -/
def mkDefault (data_type_id : DataTypeID) (destination_node_id : NodeID) :
    OutgoingTransferRegistryKey :=
  ⟨data_type_id, 0xFF, destination_node_id⟩

/-- The first assertion of the three-argument constructor:
`(transfer_type == TransferTypeMessageBroadcast) == destination_node_id.isBroadcast()`. -/
def assertBroadcastConsistent (transfer_type : TransferType) (destination_node_id : NodeID) :
    Bool :=
  (decide (transfer_type = TransferType.TransferTypeMessageBroadcast))
    == destination_node_id.isBroadcast

/-- The second assertion of the three-argument constructor:
`transfer_type != TransferTypeServiceResponse`. -/
def assertNotServiceResponse (transfer_type : TransferType) : Bool :=
  decide (transfer_type ≠ TransferType.TransferTypeServiceResponse)

/-- The three-argument constructor. The members are initialised from the arguments;
the result is `none` when one of the two assertions fails. -/
def make (data_type_id : DataTypeID) (transfer_type : TransferType)
    (destination_node_id : NodeID) : Option OutgoingTransferRegistryKey :=
  if assertBroadcastConsistent transfer_type destination_node_id then
    if assertNotServiceResponse transfer_type then
      some ⟨data_type_id, transfer_type.toUInt8, destination_node_id⟩
    else none
  else none

/-- The member `operator==`: the conjunction of the three member comparisons. -/
def beq (self rhs : OutgoingTransferRegistryKey) : Bool :=
  (self.data_type_id_.beq rhs.data_type_id_) &&
  (self.transfer_type_ == rhs.transfer_type_) &&
  (self.destination_node_id_.beq rhs.destination_node_id_)

end OutgoingTransferRegistryKey

/-! ## The registry value and the expiry predicate -/

/-- The nested struct `OutgoingTransferRegistry::Value`. -/
structure Value where
  deadline : MonotonicTime
  tid : TransferID
deriving DecidableEq, Repr

/-- The value-initialised `Value()`: both members default-constructed. -/
def Value.default : Value := ⟨MonotonicTime.zero, TransferID.default⟩

/-- The nested class `OutgoingTransferRegistry::DeadlineExpiredPredicate`. -/
structure DeadlineExpiredPredicate where
  ts_ : MonotonicTime
deriving DecidableEq, Repr

/-- The call operator of `DeadlineExpiredPredicate`. The assertion
`!value.deadline.isZero()` comes first; then the result is `value.deadline <= ts_`.
The key is not used (the trace output is not modelled). -/
def DeadlineExpiredPredicate.call (self : DeadlineExpiredPredicate)
    (_key : OutgoingTransferRegistryKey) (value : Value) : Option Bool :=
  if value.deadline.isZero then none
  else
    let expired := value.deadline.le self.ts_
    some expired

/-! ## The associative store -/

/-- An entry of the store: a key with its value. -/
abbrev KVPair := OutgoingTransferRegistryKey × Value

/-- A pointer into the store: the position of the entry pointed to. -/
abbrev Ptr := Nat

/-- Modelled from the spec: the allocator collaborator of `uavcan/map.hpp`, a
bounded pool that serves the entries beyond the static capacity, up to its own
ceiling. -/
structure IAllocator where
  ceiling : Nat
deriving DecidableEq, Repr

/-- Modelled from the spec: the `Map` container of `uavcan/map.hpp`, which is not
among the sources. It holds the live entries, has a fixed static capacity
`NumStaticEntries`, and serves entries beyond that capacity from its allocator. -/
structure Map where
  NumStaticEntries : Nat
  allocator_ : IAllocator
  entries : List KVPair
deriving DecidableEq, Repr

/-- Modelled from the spec: the lookup of `uavcan/map.hpp` over the live entries, the
position of the first entry whose key equals `key` under `operator==`. -/
def locate (key : OutgoingTransferRegistryKey) : List KVPair → Option Ptr
  | [] => none
  | e :: es => if e.1.beq key then some 0 else (locate key es).map Nat.succ

/-- Modelled from the spec: a store through a pointer into the entries of the `Map`;
the value of the entry at the position is replaced, its key is kept, and no other
entry is touched. -/
def storeAt (f : Value → Value) : Ptr → List KVPair → List KVPair
  | _, [] => []
  | 0, e :: es => (e.1, f e.2) :: es
  | p + 1, e :: es => e :: storeAt f p es

/-- Modelled from the spec: the sweep of `Map::removeWhere` over the live entries.
The predicate is called once on every entry, in order; an entry is dropped when the
predicate answers true; the sweep fails when an assertion of the predicate fails. -/
def sweep (predicate : OutgoingTransferRegistryKey → Value → Option Bool) :
    List KVPair → Option (List KVPair)
  | [] => some []
  | e :: es =>
    match predicate e.1 e.2 with
    | none => none
    | some remove =>
      match sweep predicate es with
      | none => none
      | some rest => some (if remove then rest else e :: rest)

/-- The value of the first entry of a list whose key equals `key`. -/
def lookupL (key : OutgoingTransferRegistryKey) : List KVPair → Option Value
  | [] => none
  | e :: es => if e.1.beq key then some e.2 else lookupL key es

/-- The entries that `cleanup(ts)` keeps: those whose deadline is not `<= ts`. -/
def survives (ts : MonotonicTime) (e : KVPair) : Bool := !(e.2.deadline.le ts)

namespace Map

/-- Modelled from the spec: the constructor of `Map`, an empty store on a backing
allocator. -/
def new (NumStaticEntries : Nat) (allocator : IAllocator) : Map :=
  ⟨NumStaticEntries, allocator, []⟩

/-- Modelled from the spec: whether the store can take one more entry, either in
its static capacity or from the allocator. -/
def hasRoom (m : Map) : Bool :=
  decide (m.entries.length < m.NumStaticEntries + m.allocator_.ceiling)

/-- Modelled from the spec: `Map::access(key)`, a pointer to the value stored for
`key`, or null. -/
def access (m : Map) (key : OutgoingTransferRegistryKey) : Option Ptr :=
  locate key m.entries

/-- Modelled from the spec: `Map::insert(key, value)`, a pointer to the value now
stored for `key`, or null on exhaustion. Keys stay unique: a key that is already
held has its value replaced in place. A new entry is placed after the existing
ones, so that pointers to them stay valid. -/
def insert (m : Map) (key : OutgoingTransferRegistryKey) (value : Value) :
    Option (Ptr × Map) :=
  match locate key m.entries with
  | some p => some (p, { m with entries := storeAt (fun _ => value) p m.entries })
  | none =>
    if m.hasRoom then
      some (m.entries.length, { m with entries := m.entries ++ [(key, value)] })
    else none

/-- Modelled from the spec: `Map::removeWhere(predicate)`; the predicate receives
the key and the value of every live entry exactly once and tells whether to remove
the entry. -/
def removeWhere (m : Map)
    (predicate : OutgoingTransferRegistryKey → Value → Option Bool) : Option Map :=
  (sweep predicate m.entries).map (fun es => { m with entries := es })

/-- Reading through a `Value*`. -/
def deref (m : Map) (p : Ptr) : Option Value :=
  m.entries[p]?.map Prod.snd

/-- Writing a member through a `Value*`. -/
def update (m : Map) (p : Ptr) (f : Value → Value) : Map :=
  { m with entries := storeAt f p m.entries }

end Map

/-! ## The registry -/

/-- The class template `OutgoingTransferRegistry<NumStaticEntries>`: its only member
is the store `map_`. -/
structure OutgoingTransferRegistry where
  map_ : Map
deriving DecidableEq, Repr

namespace OutgoingTransferRegistry

/-- The constructor: an empty store on the given allocator. -/
def new (NumStaticEntries : Nat) (allocator : IAllocator) : OutgoingTransferRegistry :=
  ⟨Map.new NumStaticEntries allocator⟩

/-- The method `accessOrCreate(key, new_deadline)`.

The outer `Option` is `none` when the assertion `!new_deadline.isZero()` fails.
Otherwise the result is the returned `TransferID*` (null is `none`) together with
the registry after the call. -/
def accessOrCreate (self : OutgoingTransferRegistry) (key : OutgoingTransferRegistryKey)
    (new_deadline : MonotonicTime) : Option (Option Ptr × OutgoingTransferRegistry) :=
  if new_deadline.isZero then none
  else
    match self.map_.access key with
    | some p =>
      some (some p, ⟨self.map_.update p (fun v => { v with deadline := new_deadline })⟩)
    | none =>
      match self.map_.insert key Value.default with
      | none => some (none, self)
      | some (p, m) =>
        some (some p, ⟨m.update p (fun v => { v with deadline := new_deadline })⟩)

/-- The method `cleanup(ts)`: `map_.removeWhere(DeadlineExpiredPredicate(ts))`.
The result is `none` when the assertion of the predicate fails on some entry. -/
def cleanup (self : OutgoingTransferRegistry) (ts : MonotonicTime) :
    Option OutgoingTransferRegistry :=
  (self.map_.removeWhere (DeadlineExpiredPredicate.call ⟨ts⟩)).map
    (fun m => (⟨m⟩ : OutgoingTransferRegistry))

/-- Reading the counter through a returned `TransferID*`. -/
def readTid (self : OutgoingTransferRegistry) (p : Ptr) : Option TransferID :=
  (self.map_.deref p).map Value.tid

/-- The caller writing a counter value through a returned `TransferID*`; `none` when
the pointer does not point into the store. -/
def writeTid (self : OutgoingTransferRegistry) (p : Ptr) (tid : TransferID) :
    Option OutgoingTransferRegistry :=
  if p < self.map_.entries.length then
    some ⟨self.map_.update p (fun v => { v with tid := tid })⟩
  else none

/-- The entry stored for a key: what a lookup of the key finds. -/
def entryOf (self : OutgoingTransferRegistry) (key : OutgoingTransferRegistryKey) :
    Option Value :=
  (self.map_.access key).bind self.map_.deref

/-- Number of entries held by the store. -/
def size (self : OutgoingTransferRegistry) : Nat := self.map_.entries.length

end OutgoingTransferRegistry

/-! ## Call sequences and invariants -/

/-- One use of the registry by its owner: a call of one of the two methods, or a
write of a counter through a pointer returned earlier. -/
inductive Call where
  | accessOrCreate (key : OutgoingTransferRegistryKey) (new_deadline : MonotonicTime)
  | cleanup (ts : MonotonicTime)
  | writeTid (p : Ptr) (tid : TransferID)
deriving DecidableEq, Repr

/-- The registry after one call; `none` when an assertion failed or a write went
through a pointer outside the store. -/
def OutgoingTransferRegistry.step (r : OutgoingTransferRegistry) :
    Call → Option OutgoingTransferRegistry
  | .accessOrCreate key new_deadline => (r.accessOrCreate key new_deadline).map Prod.snd
  | .cleanup ts => r.cleanup ts
  | .writeTid p tid => r.writeTid p tid

/-- The registry after a sequence of calls. -/
def OutgoingTransferRegistry.run (r : OutgoingTransferRegistry) :
    List Call → Option OutgoingTransferRegistry
  | [] => some r
  | c :: cs => (r.step c).bind (fun r1 => OutgoingTransferRegistry.run r1 cs)

/-- A registry state reachable from a freshly constructed (empty) registry. -/
def Reachable (r : OutgoingTransferRegistry) : Prop :=
  ∃ (n : Nat) (a : IAllocator) (calls : List Call),
    (OutgoingTransferRegistry.new n a).run calls = some r

/-- Invariant I3: every entry held by the store has a non-zero deadline. -/
def DeadlinesNonZero (r : OutgoingTransferRegistry) : Prop :=
  ∀ e ∈ r.map_.entries, e.2.deadline.isZero = false

/-- Uniqueness of keys: no two entries of the store have equal keys. -/
def KeysUnique (r : OutgoingTransferRegistry) : Prop :=
  r.map_.entries.Pairwise (fun a b => a.1.beq b.1 = false)

/-- A call of one of the two methods of the registry that respects the
precondition of `accessOrCreate`: an `accessOrCreate` with a non-zero deadline, or
a `cleanup` with any timestamp. -/
def Call.isMethodCall : Call → Bool
  | .accessOrCreate _ new_deadline => !new_deadline.isZero
  | .cleanup _ => true
  | .writeTid _ _ => false

/-- The later of two timestamps. -/
def MonotonicTime.later (a b : MonotonicTime) : MonotonicTime := ⟨max a.usec b.usec⟩

/-! ## Example keys and states -/

/-- Example key: data type 10, message broadcast, broadcast destination. -/
def exK1 : OutgoingTransferRegistryKey := ⟨⟨10⟩, 2, ⟨0⟩⟩

/-- Example key: data type 10, service request, destination node 5. -/
def exK2 : OutgoingTransferRegistryKey := ⟨⟨10⟩, 1, ⟨5⟩⟩

/-- Example key: data type 11, service request, destination node 7. -/
def exK3 : OutgoingTransferRegistryKey := ⟨⟨11⟩, 1, ⟨7⟩⟩

/-- Example state: an empty registry with two static entries and no overflow. -/
def exEmpty : OutgoingTransferRegistry := OutgoingTransferRegistry.new 2 ⟨0⟩

/-- Example state: the registry with two static entries and no overflow, holding
`exK1` (deadline 100, counter 3) and `exK2` (deadline 200, counter 4). -/
def exFull : OutgoingTransferRegistry :=
  ⟨⟨2, ⟨0⟩, [(exK1, ⟨⟨100⟩, ⟨3⟩⟩), (exK2, ⟨⟨200⟩, ⟨4⟩⟩)]⟩⟩

/-- The calls that lead from `exEmpty` to `exFull`. -/
def exCalls : List Call :=
  [.accessOrCreate exK1 ⟨100⟩, .writeTid 0 ⟨3⟩, .accessOrCreate exK2 ⟨200⟩, .writeTid 1 ⟨4⟩]

/-- Example state: `exFull` after `accessOrCreate(exK2, 300)`. -/
def exRefreshed : OutgoingTransferRegistry :=
  ⟨⟨2, ⟨0⟩, [(exK1, ⟨⟨100⟩, ⟨3⟩⟩), (exK2, ⟨⟨300⟩, ⟨4⟩⟩)]⟩⟩

/-- Example state: `exEmpty` after `accessOrCreate(exK1, 100)`. -/
def exOne : OutgoingTransferRegistry :=
  ⟨⟨2, ⟨0⟩, [(exK1, ⟨⟨100⟩, ⟨0⟩⟩)]⟩⟩

/-- Example calls: two `accessOrCreate` calls and a `cleanup`. -/
def exMethodCalls : List Call :=
  [.accessOrCreate exK1 ⟨100⟩, .accessOrCreate exK2 ⟨200⟩, .cleanup ⟨150⟩]

/-! ## Lemmas on keys and on lists of entries -/

theorem OutgoingTransferRegistryKey.beq_iff_eq (a b : OutgoingTransferRegistryKey) :
    a.beq b = true ↔ a = b := by
  obtain ⟨⟨d1⟩, t1, ⟨n1⟩⟩ := a
  obtain ⟨⟨d2⟩, t2, ⟨n2⟩⟩ := b
  simp [OutgoingTransferRegistryKey.beq, DataTypeID.beq, NodeID.beq, and_assoc]

theorem OutgoingTransferRegistryKey.beq_self (a : OutgoingTransferRegistryKey) :
    a.beq a = true :=
  (OutgoingTransferRegistryKey.beq_iff_eq a a).2 rfl

theorem OutgoingTransferRegistryKey.beq_eq_false_iff (a b : OutgoingTransferRegistryKey) :
    a.beq b = false ↔ a ≠ b := by
  rw [Ne, ← OutgoingTransferRegistryKey.beq_iff_eq]
  cases a.beq b <;> simp

theorem OutgoingTransferRegistryKey.beq_comm (a b : OutgoingTransferRegistryKey) :
    a.beq b = b.beq a := by
  cases h : b.beq a
  · rw [OutgoingTransferRegistryKey.beq_eq_false_iff] at h ⊢
    exact fun e => h e.symm
  · rw [OutgoingTransferRegistryKey.beq_iff_eq] at h ⊢
    exact h.symm

theorem locate_lt {k : OutgoingTransferRegistryKey} :
    ∀ {es : List KVPair} {p : Ptr}, locate k es = some p → p < es.length
  | [], _, h => by simp [locate] at h
  | e :: es, p, h => by
    unfold locate at h
    split at h
    · cases h; simp
    · cases hq : locate k es with
      | none => simp [hq] at h
      | some q =>
        simp [hq] at h
        subst h
        simpa using locate_lt hq

theorem locate_eq_none_iff {k : OutgoingTransferRegistryKey} :
    ∀ {es : List KVPair}, locate k es = none ↔ ∀ e ∈ es, e.1.beq k = false
  | [] => by simp [locate]
  | e :: es => by
    unfold locate
    cases h : e.1.beq k
    · simp [h, locate_eq_none_iff]
    · simp [h]

theorem locate_bind_get (k : OutgoingTransferRegistryKey) :
    ∀ (es : List KVPair),
      (locate k es).bind (fun p => es[p]?.map Prod.snd) = lookupL k es
  | [] => by simp [locate, lookupL]
  | e :: es => by
    unfold locate lookupL
    cases h : e.1.beq k
    · simp only [Bool.false_eq_true, if_false]
      rw [← locate_bind_get k es]
      cases locate k es <;> simp
    · simp

theorem locate_get {k : OutgoingTransferRegistryKey} :
    ∀ {es : List KVPair} {p : Ptr}, locate k es = some p →
      ∃ v, es[p]? = some (k, v)
  | [], _, h => by simp [locate] at h
  | e :: es, p, h => by
    unfold locate at h
    split at h
    · rename_i hk
      cases h
      rw [OutgoingTransferRegistryKey.beq_iff_eq] at hk
      exact ⟨e.2, by simp [← hk]⟩
    · cases hq : locate k es with
      | none => simp [hq] at h
      | some q =>
        simp [hq] at h
        subst h
        simpa using locate_get hq

theorem storeAt_length (f : Value → Value) :
    ∀ (p : Ptr) (es : List KVPair), (storeAt f p es).length = es.length
  | _, [] => by simp [storeAt]
  | 0, e :: es => by simp [storeAt]
  | p + 1, e :: es => by simp [storeAt, storeAt_length f p es]

theorem storeAt_keys (f : Value → Value) :
    ∀ (p : Ptr) (es : List KVPair), (storeAt f p es).map Prod.fst = es.map Prod.fst
  | _, [] => by simp [storeAt]
  | 0, e :: es => by simp [storeAt]
  | p + 1, e :: es => by simp [storeAt, storeAt_keys f p es]

theorem locate_storeAt (k : OutgoingTransferRegistryKey) (f : Value → Value) :
    ∀ (p : Ptr) (es : List KVPair), locate k (storeAt f p es) = locate k es
  | _, [] => by simp [storeAt]
  | 0, e :: es => by simp [storeAt, locate]
  | p + 1, e :: es => by simp [storeAt, locate, locate_storeAt k f p es]

theorem storeAt_get (f : Value → Value) :
    ∀ (p : Ptr) (es : List KVPair),
      (storeAt f p es)[p]? = es[p]?.map (fun e => (e.1, f e.2))
  | _, [] => by simp [storeAt]
  | 0, e :: es => by simp [storeAt]
  | p + 1, e :: es => by simpa [storeAt] using storeAt_get f p es

theorem storeAt_get_ne (f : Value → Value) :
    ∀ (p q : Ptr) (es : List KVPair), q ≠ p → (storeAt f p es)[q]? = es[q]?
  | _, _, [], _ => by simp [storeAt]
  | 0, 0, e :: es, h => absurd rfl h
  | 0, q + 1, e :: es, _ => by simp [storeAt]
  | p + 1, 0, e :: es, _ => by simp [storeAt]
  | p + 1, q + 1, e :: es, h => by
    simpa [storeAt] using storeAt_get_ne f p q es (fun e => h (by rw [e]))

theorem storeAt_length_append (f : Value → Value) (e : KVPair) :
    ∀ (es : List KVPair), storeAt f es.length (es ++ [e]) = es ++ [(e.1, f e.2)]
  | [] => by simp [storeAt]
  | x :: es => by simp [storeAt, storeAt_length_append f e es]

theorem mem_storeAt {f : Value → Value} {x : KVPair} :
    ∀ {p : Ptr} {es : List KVPair}, x ∈ storeAt f p es →
      x ∈ es ∨ ∃ e ∈ es, x = (e.1, f e.2)
  | _, [], h => by simp [storeAt] at h
  | 0, e :: es, h => by
    simp only [storeAt, List.mem_cons] at h
    rcases h with h | h
    · exact Or.inr ⟨e, by simp, h⟩
    · exact Or.inl (by simp [h])
  | p + 1, e :: es, h => by
    simp only [storeAt, List.mem_cons] at h
    rcases h with h | h
    · exact Or.inl (by simp [h])
    · rcases mem_storeAt h with h1 | ⟨y, hy, hxy⟩
      · exact Or.inl (by simp [h1])
      · exact Or.inr ⟨y, by simp [hy], hxy⟩

/-- Updating the value at the position where `k` is found updates what a lookup of
`k` finds. -/
theorem lookupL_storeAt_same {k : OutgoingTransferRegistryKey} (f : Value → Value) :
    ∀ {es : List KVPair} {p : Ptr}, locate k es = some p →
      lookupL k (storeAt f p es) = (lookupL k es).map f
  | [], _, h => by simp [locate] at h
  | e :: es, p, h => by
    unfold locate at h
    cases hk : e.1.beq k
    · simp only [hk, Bool.false_eq_true, if_false] at h
      cases hq : locate k es with
      | none => simp [hq] at h
      | some q =>
        simp [hq] at h
        subst h
        simp [storeAt, lookupL, hk, lookupL_storeAt_same f hq]
    · simp only [hk, if_true] at h
      cases h
      simp [storeAt, lookupL, hk]

/-- Updating the value at the position where `k` is found does not change what a
lookup of a different key finds. -/
theorem lookupL_storeAt_other {k k2 : OutgoingTransferRegistryKey} (f : Value → Value)
    (hne : k.beq k2 = false) :
    ∀ {es : List KVPair} {p : Ptr}, locate k es = some p →
      lookupL k2 (storeAt f p es) = lookupL k2 es
  | [], _, h => by simp [locate] at h
  | e :: es, p, h => by
    unfold locate at h
    cases hk : e.1.beq k
    · simp only [hk, Bool.false_eq_true, if_false] at h
      cases hq : locate k es with
      | none => simp [hq] at h
      | some q =>
        simp [hq] at h
        subst h
        simp [storeAt, lookupL, lookupL_storeAt_other f hne hq]
    · simp only [hk, if_true] at h
      cases h
      rw [OutgoingTransferRegistryKey.beq_iff_eq] at hk
      simp [storeAt, lookupL, hk, hne]

theorem lookupL_append (k : OutgoingTransferRegistryKey) (l : List KVPair) :
    ∀ (es : List KVPair),
      lookupL k (es ++ l) = (lookupL k es).orElse (fun _ => lookupL k l)
  | [] => by simp [lookupL]
  | e :: es => by
    cases hk : e.1.beq k <;> simp [lookupL, hk, lookupL_append k l es]

theorem locate_append_of_none {k : OutgoingTransferRegistryKey} (v : Value) :
    ∀ {es : List KVPair}, locate k es = none →
      locate k (es ++ [(k, v)]) = some es.length
  | [], _ => by simp [locate, OutgoingTransferRegistryKey.beq_self]
  | e :: es, h => by
    unfold locate at h
    cases hk : e.1.beq k
    · simp only [hk, Bool.false_eq_true, if_false, Option.map_eq_none'] at h
      simp [locate, hk, locate_append_of_none v h]
    · simp [hk] at h

theorem lookupL_eq_none_iff {k : OutgoingTransferRegistryKey} {es : List KVPair} :
    lookupL k es = none ↔ locate k es = none := by
  rw [← locate_bind_get]
  constructor
  · intro h
    cases hq : locate k es with
    | none => rfl
    | some q =>
      obtain ⟨v, hv⟩ := locate_get hq
      simp [hq, hv] at h
  · intro h
    simp [h]

/-! ## Lemmas on the sweep -/

theorem sweep_eq_filter (ts : MonotonicTime) :
    ∀ (es : List KVPair), (∀ e ∈ es, e.2.deadline.isZero = false) →
      sweep (DeadlineExpiredPredicate.call ⟨ts⟩) es = some (es.filter (survives ts))
  | [], _ => by simp [sweep]
  | e :: es, h => by
    have he : e.2.deadline.isZero = false := h e (by simp)
    have hes : ∀ x ∈ es, x.2.deadline.isZero = false := fun x hx => h x (by simp [hx])
    unfold sweep
    simp only [DeadlineExpiredPredicate.call, he, Bool.false_eq_true, if_false,
      sweep_eq_filter ts es hes]
    cases hle : e.2.deadline.le ts <;> simp [List.filter, survives, hle]

theorem sweep_isSome_iff (ts : MonotonicTime) :
    ∀ (es : List KVPair),
      (sweep (DeadlineExpiredPredicate.call ⟨ts⟩) es).isSome = true ↔
        ∀ e ∈ es, e.2.deadline.isZero = false
  | [] => by simp [sweep]
  | e :: es => by
    unfold sweep
    cases he : e.2.deadline.isZero
    · simp only [DeadlineExpiredPredicate.call, he, Bool.false_eq_true, if_false]
      have ih := sweep_isSome_iff ts es
      cases hs : sweep (DeadlineExpiredPredicate.call ⟨ts⟩) es with
      | none => simpa [hs, he] using ih
      | some rest => simpa [hs, he] using ih
    · simp [DeadlineExpiredPredicate.call, he]

/-- A live entry that is found for `k` is still what is found for `k` after the
expired entries are dropped. -/
theorem lookupL_filter_keep {k : OutgoingTransferRegistryKey} {ts : MonotonicTime}
    {v : Value} (hv : v.deadline.le ts = false) :
    ∀ {es : List KVPair}, lookupL k es = some v →
      lookupL k (es.filter (survives ts)) = some v
  | [], h => by simp [lookupL] at h
  | e :: es, h => by
    unfold lookupL at h
    cases hk : e.1.beq k
    · simp only [hk, Bool.false_eq_true, if_false] at h
      have ih := lookupL_filter_keep hv h
      cases hs : survives ts e <;> simp [List.filter, hs, lookupL, hk, ih]
    · simp only [hk, if_true, Option.some.injEq] at h
      have hs : survives ts e = true := by simp [survives, h, hv]
      simp [List.filter, hs, lookupL, hk, h]

theorem locate_filter_none {k : OutgoingTransferRegistryKey} (q : KVPair → Bool)
    {es : List KVPair} (h : locate k es = none) : locate k (es.filter q) = none := by
  rw [locate_eq_none_iff] at h ⊢
  intro e he
  exact h e (List.mem_filter.1 he).1

/-- With unique keys, an expired entry that is found for `k` leaves no entry for `k`
after the expired entries are dropped. -/
theorem locate_filter_drop {k : OutgoingTransferRegistryKey} {ts : MonotonicTime}
    {v : Value} (hv : v.deadline.le ts = true) :
    ∀ {es : List KVPair}, es.Pairwise (fun a b => a.1.beq b.1 = false) →
      lookupL k es = some v → locate k (es.filter (survives ts)) = none
  | [], _, h => by simp [lookupL] at h
  | e :: es, hu, h => by
    rw [List.pairwise_cons] at hu
    unfold lookupL at h
    cases hk : e.1.beq k
    · simp only [hk, Bool.false_eq_true, if_false] at h
      have ih := locate_filter_drop hv hu.2 h
      cases hs : survives ts e
      · simpa [List.filter, hs] using ih
      · simp [List.filter, hs, locate, hk, ih]
    · simp only [hk, if_true, Option.some.injEq] at h
      have hs : survives ts e = false := by simp [survives, h, hv]
      rw [OutgoingTransferRegistryKey.beq_iff_eq] at hk
      have hnone : locate k es = none := by
        rw [locate_eq_none_iff]
        intro x hx
        rw [OutgoingTransferRegistryKey.beq_comm, ← hk]
        exact hu.1 x hx
      simpa [List.filter, hs] using locate_filter_none (survives ts) hnone

/-! ## The operations, case by case -/

namespace OutgoingTransferRegistry

theorem entryOf_eq_lookupL (r : OutgoingTransferRegistry) (k : OutgoingTransferRegistryKey) :
    r.entryOf k = lookupL k r.map_.entries := by
  unfold entryOf Map.access
  rw [← locate_bind_get]
  rfl

/-- The hit path of `accessOrCreate`. -/
theorem accessOrCreate_hit {r : OutgoingTransferRegistry} {k : OutgoingTransferRegistryKey}
    {t : MonotonicTime} {p : Ptr} (ht : t.isZero = false) (hp : r.map_.access k = some p) :
    r.accessOrCreate k t =
      some (some p, ⟨r.map_.update p (fun v => { v with deadline := t })⟩) := by
  simp [accessOrCreate, ht, hp]

/-- The insertion path of `accessOrCreate`. -/
theorem accessOrCreate_insert {r : OutgoingTransferRegistry} {k : OutgoingTransferRegistryKey}
    {t : MonotonicTime} (ht : t.isZero = false) (hp : r.map_.access k = none)
    (hroom : r.map_.hasRoom = true) :
    r.accessOrCreate k t =
      some (some r.map_.entries.length,
        ⟨{ r.map_ with entries := r.map_.entries ++ [(k, ⟨t, TransferID.default⟩)] }⟩) := by
  have hl : locate k r.map_.entries = none := hp
  simp [accessOrCreate, ht, hp, Map.insert, hl, hroom, Map.update, storeAt_length_append,
    Value.default]

/-- The failure path of `accessOrCreate`. -/
theorem accessOrCreate_full {r : OutgoingTransferRegistry} {k : OutgoingTransferRegistryKey}
    {t : MonotonicTime} (ht : t.isZero = false) (hp : r.map_.access k = none)
    (hroom : r.map_.hasRoom = false) :
    r.accessOrCreate k t = some (none, r) := by
  have hl : locate k r.map_.entries = none := hp
  simp [accessOrCreate, ht, hp, Map.insert, hl, hroom]

theorem insert_absent {m : Map} {k : OutgoingTransferRegistryKey} (v : Value)
    (hp : m.access k = none) :
    m.insert k v =
      if m.hasRoom then
        some (m.entries.length, { m with entries := m.entries ++ [(k, v)] })
      else none := by
  have hl : locate k m.entries = none := hp
  simp [Map.insert, hl]

/-- On a store whose deadlines are all non-zero, `cleanup` keeps exactly the
entries that survive. -/
theorem cleanup_eq {r : OutgoingTransferRegistry} (ts : MonotonicTime)
    (h : DeadlinesNonZero r) :
    r.cleanup ts =
      some ⟨{ r.map_ with entries := r.map_.entries.filter (survives ts) }⟩ := by
  simp [cleanup, Map.removeWhere, sweep_eq_filter ts r.map_.entries h]

end OutgoingTransferRegistry

/-! ## Invariants of the reachable states -/

theorem keysUnique_iff (r : OutgoingTransferRegistry) :
    KeysUnique r ↔
      (r.map_.entries.map Prod.fst).Pairwise (fun a b => a.beq b = false) := by
  unfold KeysUnique
  rw [List.pairwise_map]

theorem update_keysUnique {r : OutgoingTransferRegistry} (p : Ptr) (f : Value → Value)
    (h : KeysUnique r) : KeysUnique ⟨r.map_.update p f⟩ := by
  rw [keysUnique_iff] at h ⊢
  simpa [Map.update, storeAt_keys] using h

theorem update_deadlinesNonZero {r : OutgoingTransferRegistry} (p : Ptr) (f : Value → Value)
    (hf : ∀ v, (f v).deadline.isZero = false) (h : DeadlinesNonZero r) :
    DeadlinesNonZero ⟨r.map_.update p f⟩ := by
  intro x hx
  rcases mem_storeAt hx with h1 | ⟨e, _, rfl⟩
  · exact h x h1
  · exact hf e.2

theorem update_tid_deadlinesNonZero {r : OutgoingTransferRegistry} (p : Ptr) (tid : TransferID)
    (h : DeadlinesNonZero r) :
    DeadlinesNonZero ⟨r.map_.update p (fun v => { v with tid := tid })⟩ := by
  intro x hx
  rcases mem_storeAt hx with h1 | ⟨e, he, rfl⟩
  · exact h x h1
  · exact h e he

theorem accessOrCreate_inv {r r1 : OutgoingTransferRegistry}
    {k : OutgoingTransferRegistryKey} {t : MonotonicTime} {res : Option Ptr}
    (hd : DeadlinesNonZero r) (hu : KeysUnique r)
    (h : r.accessOrCreate k t = some (res, r1)) :
    DeadlinesNonZero r1 ∧ KeysUnique r1 := by
  cases ht : t.isZero
  · cases hp : r.map_.access k with
    | some p =>
      rw [OutgoingTransferRegistry.accessOrCreate_hit ht hp] at h
      cases h
      exact ⟨update_deadlinesNonZero p _ (fun _ => ht) hd, update_keysUnique p _ hu⟩
    | none =>
      cases hroom : r.map_.hasRoom
      · rw [OutgoingTransferRegistry.accessOrCreate_full ht hp hroom] at h
        cases h
        exact ⟨hd, hu⟩
      · rw [OutgoingTransferRegistry.accessOrCreate_insert ht hp hroom] at h
        cases h
        constructor
        · intro x hx
          rcases List.mem_append.1 hx with h1 | h1
          · exact hd x h1
          · simp only [List.mem_singleton] at h1
            subst h1
            exact ht
        · unfold KeysUnique
          rw [List.pairwise_append]
          refine ⟨hu, by simp, ?_⟩
          intro a ha b hb
          simp only [List.mem_singleton] at hb
          subst hb
          exact (locate_eq_none_iff.1 hp) a ha
  · simp [OutgoingTransferRegistry.accessOrCreate, ht] at h

theorem cleanup_inv {r r1 : OutgoingTransferRegistry} {ts : MonotonicTime}
    (hd : DeadlinesNonZero r) (hu : KeysUnique r) (h : r.cleanup ts = some r1) :
    DeadlinesNonZero r1 ∧ KeysUnique r1 := by
  rw [OutgoingTransferRegistry.cleanup_eq ts hd] at h
  cases h
  constructor
  · intro x hx
    exact hd x (List.mem_filter.1 hx).1
  · exact List.Pairwise.sublist (List.filter_sublist _) hu

theorem step_inv {r r1 : OutgoingTransferRegistry} {c : Call}
    (hd : DeadlinesNonZero r) (hu : KeysUnique r) (h : r.step c = some r1) :
    DeadlinesNonZero r1 ∧ KeysUnique r1 := by
  cases c with
  | accessOrCreate k t =>
    simp only [OutgoingTransferRegistry.step, Option.map_eq_some'] at h
    obtain ⟨⟨res, r2⟩, h2, rfl⟩ := h
    exact accessOrCreate_inv hd hu h2
  | cleanup ts => exact cleanup_inv hd hu h
  | writeTid p tid =>
    simp only [OutgoingTransferRegistry.step, OutgoingTransferRegistry.writeTid] at h
    split at h
    · cases h
      exact ⟨update_tid_deadlinesNonZero p tid hd, update_keysUnique p _ hu⟩
    · cases h

theorem run_inv :
    ∀ (calls : List Call) {r r1 : OutgoingTransferRegistry},
      DeadlinesNonZero r → KeysUnique r → r.run calls = some r1 →
        DeadlinesNonZero r1 ∧ KeysUnique r1
  | [], r, r1, hd, hu, h => by
    simp only [OutgoingTransferRegistry.run, Option.some.injEq] at h
    subst h
    exact ⟨hd, hu⟩
  | c :: cs, r, r1, hd, hu, h => by
    simp only [OutgoingTransferRegistry.run, Option.bind_eq_some] at h
    obtain ⟨r2, h2, h3⟩ := h
    obtain ⟨hd2, hu2⟩ := step_inv hd hu h2
    exact run_inv cs hd2 hu2 h3

/-- Every reachable registry state has non-zero deadlines and unique keys. -/
theorem reachable_inv {r : OutgoingTransferRegistry} (h : Reachable r) :
    DeadlinesNonZero r ∧ KeysUnique r := by
  obtain ⟨n, a, calls, hrun⟩ := h
  refine run_inv calls ?_ ?_ hrun
  · intro e he
    simp [OutgoingTransferRegistry.new, Map.new] at he
  · simp [KeysUnique, OutgoingTransferRegistry.new, Map.new]

/-- What a successful `accessOrCreate` leaves behind: the key is found at the
returned pointer, with the new deadline, and with the counter it had before (or the
default counter when it was absent). -/
theorem accessOrCreate_success {r r1 : OutgoingTransferRegistry}
    {k : OutgoingTransferRegistryKey} {t : MonotonicTime} {p : Ptr}
    (h : r.accessOrCreate k t = some (some p, r1)) :
    t.isZero = false ∧ r1.map_.access k = some p ∧
      ∃ c, r1.map_.deref p = some ⟨t, c⟩ ∧
        (∀ v, r.entryOf k = some v → c = v.tid ∧ r.map_.access k = some p ∧
          r1.size = r.size) ∧
        (r.map_.access k = none → c = TransferID.default ∧ r1.size = r.size + 1) := by
  cases ht : t.isZero
  · refine ⟨rfl, ?_⟩
    cases hp : r.map_.access k with
    | some q =>
      rw [OutgoingTransferRegistry.accessOrCreate_hit ht hp] at h
      simp only [Option.some.injEq, Prod.mk.injEq] at h
      obtain ⟨rfl, rfl⟩ := h
      obtain ⟨v, hv⟩ := locate_get hp
      refine ⟨by simpa [Map.access, Map.update, locate_storeAt] using hp, v.tid, ?_, ?_, ?_⟩
      · simp [Map.deref, Map.update, storeAt_get, hv]
      · intro w hw
        have : r.entryOf k = some v := by
          simp [OutgoingTransferRegistry.entryOf, hp, Map.deref, hv]
        rw [this] at hw
        cases hw
        exact ⟨rfl, rfl, by simp [OutgoingTransferRegistry.size, Map.update, storeAt_length]⟩
      · intro hn
        cases hn
    | none =>
      cases hroom : r.map_.hasRoom
      · rw [OutgoingTransferRegistry.accessOrCreate_full ht hp hroom] at h
        simp at h
      · rw [OutgoingTransferRegistry.accessOrCreate_insert ht hp hroom] at h
        simp only [Option.some.injEq, Prod.mk.injEq] at h
        obtain ⟨rfl, rfl⟩ := h
        have hl : locate k r.map_.entries = none := hp
        refine ⟨by simpa [Map.access] using locate_append_of_none _ hl,
          TransferID.default, by simp [Map.deref], ?_, ?_⟩
        · intro w hw
          simp [OutgoingTransferRegistry.entryOf, hp] at hw
        · intro _
          exact ⟨rfl, by simp [OutgoingTransferRegistry.size]⟩
  · simp [OutgoingTransferRegistry.accessOrCreate, ht] at h

/-- On a store with non-zero deadlines, `cleanup` keeps the entry found for a key
when its deadline is later than the sweep time. -/
theorem cleanup_keeps {r : OutgoingTransferRegistry} {k : OutgoingTransferRegistryKey}
    {v : Value} {now : MonotonicTime} (hd : DeadlinesNonZero r)
    (hk : r.entryOf k = some v) (hlate : now.usec < v.deadline.usec) :
    ∃ r1, r.cleanup now = some r1 ∧ r1.entryOf k = some v := by
  refine ⟨_, OutgoingTransferRegistry.cleanup_eq now hd, ?_⟩
  rw [OutgoingTransferRegistry.entryOf_eq_lookupL] at hk ⊢
  exact lookupL_filter_keep (by simp [MonotonicTime.le, hlate]) hk

/-- On a store with non-zero deadlines and unique keys, `cleanup` removes the entry
found for a key when its deadline is not later than the sweep time. -/
theorem cleanup_drops {r : OutgoingTransferRegistry} {k : OutgoingTransferRegistryKey}
    {v : Value} {now : MonotonicTime} (hd : DeadlinesNonZero r) (hu : KeysUnique r)
    (hk : r.entryOf k = some v) (hexp : v.deadline.usec ≤ now.usec) :
    ∃ r1, r.cleanup now = some r1 ∧ r1.map_.access k = none ∧ r1.entryOf k = none := by
  rw [OutgoingTransferRegistry.entryOf_eq_lookupL] at hk
  have hnone : locate k (r.map_.entries.filter (survives now)) = none :=
    locate_filter_drop (by simp [MonotonicTime.le, hexp]) hu hk
  refine ⟨_, OutgoingTransferRegistry.cleanup_eq now hd, hnone, ?_⟩
  rw [OutgoingTransferRegistry.entryOf_eq_lookupL]
  exact lookupL_eq_none_iff.2 hnone

/-- A call of `accessOrCreate` for one key does not change what is found for a
different key. -/
theorem accessOrCreate_other {r r1 : OutgoingTransferRegistry}
    {k k2 : OutgoingTransferRegistryKey} {t : MonotonicTime} {res : Option Ptr}
    (hne : k.beq k2 = false) (h : r.accessOrCreate k t = some (res, r1)) :
    r1.entryOf k2 = r.entryOf k2 := by
  cases ht : t.isZero
  · cases hp : r.map_.access k with
    | some q =>
      rw [OutgoingTransferRegistry.accessOrCreate_hit ht hp] at h
      simp only [Option.some.injEq, Prod.mk.injEq] at h
      obtain ⟨-, rfl⟩ := h
      rw [OutgoingTransferRegistry.entryOf_eq_lookupL, OutgoingTransferRegistry.entryOf_eq_lookupL]
      exact lookupL_storeAt_other _ hne hp
    | none =>
      cases hroom : r.map_.hasRoom
      · rw [OutgoingTransferRegistry.accessOrCreate_full ht hp hroom] at h
        simp only [Option.some.injEq, Prod.mk.injEq] at h
        obtain ⟨-, rfl⟩ := h
        rfl
      · rw [OutgoingTransferRegistry.accessOrCreate_insert ht hp hroom] at h
        simp only [Option.some.injEq, Prod.mk.injEq] at h
        obtain ⟨-, rfl⟩ := h
        rw [OutgoingTransferRegistry.entryOf_eq_lookupL,
          OutgoingTransferRegistry.entryOf_eq_lookupL]
        simp only [lookupL_append, lookupL, hne, Bool.false_eq_true, if_false]
        cases lookupL k2 r.map_.entries <;> rfl
  · simp [OutgoingTransferRegistry.accessOrCreate, ht] at h

/-- With a non-zero deadline, `accessOrCreate` passes its assertion. -/
theorem accessOrCreate_total (r : OutgoingTransferRegistry) (k : OutgoingTransferRegistryKey)
    {t : MonotonicTime} (ht : t.isZero = false) :
    ∃ res r1, r.accessOrCreate k t = some (res, r1) := by
  cases hp : r.map_.access k with
  | some q => exact ⟨_, _, OutgoingTransferRegistry.accessOrCreate_hit ht hp⟩
  | none =>
    cases hroom : r.map_.hasRoom
    · exact ⟨_, _, OutgoingTransferRegistry.accessOrCreate_full ht hp hroom⟩
    · exact ⟨_, _, OutgoingTransferRegistry.accessOrCreate_insert ht hp hroom⟩

theorem entryOf_some_access {r : OutgoingTransferRegistry}
    {k : OutgoingTransferRegistryKey} {v : Value} (h : r.entryOf k = some v) :
    ∃ p, r.map_.access k = some p ∧ r.map_.deref p = some v := by
  simpa [OutgoingTransferRegistry.entryOf, Option.bind_eq_some] using h

/-- The caller writing a counter through the pointer to the entry of `k`. -/
theorem writeTid_entry {r : OutgoingTransferRegistry} {k : OutgoingTransferRegistryKey}
    {p : Ptr} {w : Value} (tid : TransferID) (hp : r.map_.access k = some p)
    (hw : r.map_.deref p = some w) :
    ∃ r1, r.writeTid p tid = some r1 ∧ r1.map_.access k = some p ∧
      r1.map_.deref p = some ⟨w.deadline, tid⟩ ∧
      r1.entryOf k = some ⟨w.deadline, tid⟩ ∧ r1.size = r.size ∧
      (DeadlinesNonZero r → DeadlinesNonZero r1) ∧ (KeysUnique r → KeysUnique r1) := by
  have hlt : p < r.map_.entries.length := locate_lt hp
  have hacc : (r.map_.update p fun v => { v with tid := tid }).access k = some p := by
    simpa [Map.access, Map.update, locate_storeAt] using hp
  have hder : (r.map_.update p fun v => { v with tid := tid }).deref p =
      some ⟨w.deadline, tid⟩ := by
    simp only [Map.deref, Option.map_eq_some'] at hw
    obtain ⟨e, he, rfl⟩ := hw
    simp [Map.deref, Map.update, storeAt_get, he]
  refine ⟨⟨r.map_.update p (fun v => { v with tid := tid })⟩, ?_, hacc, hder, ?_, ?_, ?_, ?_⟩
  · simp [OutgoingTransferRegistry.writeTid, hlt]
  · simp [OutgoingTransferRegistry.entryOf, hacc, hder]
  · simp [OutgoingTransferRegistry.size, Map.update, storeAt_length]
  · exact update_tid_deadlinesNonZero p tid
  · exact update_keysUnique p _

theorem exFull_reachable : Reachable exFull := ⟨2, ⟨0⟩, exCalls, by decide⟩

/-! ## The claims -/

/-- C1: `accessOrCreate` on a present key. For every registry state, every key `k`
that the store holds (a lookup gives the pointer `p`) and every non-zero deadline
`t`, the call passes its assertion and returns `p`, non-null; the counter read
through it is the counter stored for `k` before the call; afterwards the entry of
`k` is still at `p`, has deadline exactly `t` and the same counter, and the number
of entries is unchanged. -/
theorem accessOrCreate_present (r : OutgoingTransferRegistry)
    (k : OutgoingTransferRegistryKey) (t : MonotonicTime) (p : Ptr)
    (hp : r.map_.access k = some p) (ht : t.isZero = false) :
    ∃ v r1, r.map_.deref p = some v ∧
      r.accessOrCreate k t = some (some p, r1) ∧
      r1.readTid p = some v.tid ∧
      r1.map_.access k = some p ∧
      r1.map_.deref p = some ⟨t, v.tid⟩ ∧
      r1.size = r.size := by
  obtain ⟨v, hv⟩ := locate_get hp
  refine ⟨v, _, ?_, OutgoingTransferRegistry.accessOrCreate_hit ht hp, ?_, ?_, ?_, ?_⟩
  · simp [Map.deref, hv]
  · simp [OutgoingTransferRegistry.readTid, Map.deref, Map.update, storeAt_get, hv]
  · simpa [Map.access, Map.update, locate_storeAt] using hp
  · simp [Map.deref, Map.update, storeAt_get, hv]
  · simp [OutgoingTransferRegistry.size, Map.update, storeAt_length]

/-- Witness for C1: refreshing `exK2` in `exFull` with deadline 300. -/
theorem accessOrCreate_present_witness :
    exFull.map_.access exK2 = some 1 ∧ (⟨300⟩ : MonotonicTime).isZero = false ∧
    ∃ v r1, exFull.map_.deref 1 = some v ∧
      exFull.accessOrCreate exK2 ⟨300⟩ = some (some 1, r1) ∧
      r1.readTid 1 = some v.tid ∧
      r1.map_.access exK2 = some 1 ∧
      r1.map_.deref 1 = some ⟨⟨300⟩, v.tid⟩ ∧
      r1.size = exFull.size :=
  ⟨by decide, by decide,
    accessOrCreate_present exFull exK2 ⟨300⟩ 1 (by decide) (by decide)⟩

/-- C2: `accessOrCreate` on an absent key when the insertion succeeds. For every
registry state, every key `k` that the store does not hold and every non-zero
deadline `t`, if the insert of `k` with a default value into the store succeeds
(giving the pointer `p`), then the call returns `p`, non-null; the counter read
through it is the default `TransferID`; afterwards the store holds `k` at `p` with
deadline exactly `t`, and it has exactly one entry more than before. -/
theorem accessOrCreate_absent_inserted (r : OutgoingTransferRegistry)
    (k : OutgoingTransferRegistryKey) (t : MonotonicTime) (p : Ptr) (m : Map)
    (hp : r.map_.access k = none) (hins : r.map_.insert k Value.default = some (p, m))
    (ht : t.isZero = false) :
    ∃ r1, r.accessOrCreate k t = some (some p, r1) ∧
      r1.readTid p = some TransferID.default ∧
      r1.map_.access k = some p ∧
      r1.map_.deref p = some ⟨t, TransferID.default⟩ ∧
      r1.size = r.size + 1 := by
  rw [OutgoingTransferRegistry.insert_absent _ hp] at hins
  cases hroom : r.map_.hasRoom
  · simp [hroom] at hins
  · simp only [hroom, if_true, Option.some.injEq, Prod.mk.injEq] at hins
    obtain ⟨rfl, -⟩ := hins
    have hl : locate k r.map_.entries = none := hp
    refine ⟨_, OutgoingTransferRegistry.accessOrCreate_insert ht hp hroom, ?_, ?_, ?_, ?_⟩
    · simp [OutgoingTransferRegistry.readTid, Map.deref]
    · simpa [Map.access] using locate_append_of_none _ hl
    · simp [Map.deref]
    · simp [OutgoingTransferRegistry.size]

/-- Witness for C2: creating `exK1` in the empty registry `exEmpty`. -/
theorem accessOrCreate_absent_inserted_witness :
    exEmpty.map_.access exK1 = none ∧
    exEmpty.map_.insert exK1 Value.default =
      some (0, ⟨2, ⟨0⟩, [(exK1, Value.default)]⟩) ∧
    (⟨100⟩ : MonotonicTime).isZero = false ∧
    ∃ r1, exEmpty.accessOrCreate exK1 ⟨100⟩ = some (some 0, r1) ∧
      r1.readTid 0 = some TransferID.default ∧
      r1.map_.access exK1 = some 0 ∧
      r1.map_.deref 0 = some ⟨⟨100⟩, TransferID.default⟩ ∧
      r1.size = exEmpty.size + 1 :=
  ⟨by decide, by decide, by decide,
    accessOrCreate_absent_inserted exEmpty exK1 ⟨100⟩ 0 ⟨2, ⟨0⟩, [(exK1, Value.default)]⟩
      (by decide) (by decide) (by decide)⟩

/-- C3: `cleanup` removes exactly the expired entries. For every reachable registry
state and every timestamp `now`, `cleanup(now)` passes its assertions, and the
store afterwards holds exactly the entries of the prior state whose deadline is
strictly greater than `now`, each with its key, deadline and counter unchanged (in
the same order); the capacity of the store is unchanged. -/
theorem cleanup_removes_exactly_expired (r : OutgoingTransferRegistry)
    (now : MonotonicTime) (hr : Reachable r) :
    ∃ r1, r.cleanup now = some r1 ∧
      r1.map_.entries =
        r.map_.entries.filter (fun e => decide (now.usec < e.2.deadline.usec)) ∧
      (∀ e, e ∈ r1.map_.entries ↔ e ∈ r.map_.entries ∧ now.usec < e.2.deadline.usec) ∧
      r1.map_.NumStaticEntries = r.map_.NumStaticEntries ∧
      r1.map_.allocator_ = r.map_.allocator_ := by
  have hf : survives now = fun e => decide (now.usec < e.2.deadline.usec) := by
    funext e
    by_cases h : e.2.deadline.usec ≤ now.usec
    · simp [survives, MonotonicTime.le, h]
    · simp [survives, MonotonicTime.le, h, Nat.lt_of_not_le h]
  refine ⟨_, OutgoingTransferRegistry.cleanup_eq now (reachable_inv hr).1, ?_, ?_, rfl, rfl⟩
  · simp [hf]
  · intro e
    simp [hf, List.mem_filter]

/-- Witness for C3: `cleanup(150)` on `exFull`. -/
theorem cleanup_removes_exactly_expired_witness :
    Reachable exFull ∧
    ∃ r1, exFull.cleanup ⟨150⟩ = some r1 ∧
      r1.map_.entries =
        exFull.map_.entries.filter (fun e => decide ((⟨150⟩ : MonotonicTime).usec < e.2.deadline.usec)) ∧
      (∀ e, e ∈ r1.map_.entries ↔
        e ∈ exFull.map_.entries ∧ (⟨150⟩ : MonotonicTime).usec < e.2.deadline.usec) ∧
      r1.map_.NumStaticEntries = exFull.map_.NumStaticEntries ∧
      r1.map_.allocator_ = exFull.map_.allocator_ :=
  ⟨⟨2, ⟨0⟩, exCalls, by decide⟩,
    cleanup_removes_exactly_expired exFull ⟨150⟩ ⟨2, ⟨0⟩, exCalls, by decide⟩⟩

/-- C4: `accessOrCreate` fails only on resource exhaustion. For every registry
state, key `k` and non-zero deadline, the call passes its assertion, and it returns
null if and only if `k` is absent from the store and the insert of `k` into the
store fails; then the store has no room. It never returns null for a key that the
store holds. -/
theorem accessOrCreate_null_iff (r : OutgoingTransferRegistry)
    (k : OutgoingTransferRegistryKey) (t : MonotonicTime) (ht : t.isZero = false) :
    ∃ res r1, r.accessOrCreate k t = some (res, r1) ∧
      (res = none ↔
        r.map_.access k = none ∧ r.map_.insert k Value.default = none) ∧
      (res = none → r.map_.hasRoom = false) ∧
      (r.map_.access k ≠ none → res ≠ none) := by
  cases hp : r.map_.access k with
  | some p =>
    exact ⟨_, _, OutgoingTransferRegistry.accessOrCreate_hit ht hp, by simp, by simp, by simp⟩
  | none =>
    cases hroom : r.map_.hasRoom
    · exact ⟨_, _, OutgoingTransferRegistry.accessOrCreate_full ht hp hroom,
        by simp [OutgoingTransferRegistry.insert_absent _ hp, hroom], by simp, by simp⟩
    · exact ⟨_, _, OutgoingTransferRegistry.accessOrCreate_insert ht hp hroom,
        by simp [OutgoingTransferRegistry.insert_absent _ hp, hroom], by simp, by simp⟩

/-- Witness for C4: `accessOrCreate` of the new key `exK3` on the full `exFull`. -/
theorem accessOrCreate_null_iff_witness :
    (⟨300⟩ : MonotonicTime).isZero = false ∧
    ∃ res r1, exFull.accessOrCreate exK3 ⟨300⟩ = some (res, r1) ∧
      (res = none ↔
        exFull.map_.access exK3 = none ∧ exFull.map_.insert exK3 Value.default = none) ∧
      (res = none → exFull.map_.hasRoom = false) ∧
      (exFull.map_.access exK3 ≠ none → res ≠ none) :=
  ⟨by decide, accessOrCreate_null_iff exFull exK3 ⟨300⟩ (by decide)⟩

/-- C5: a failed `accessOrCreate` is atomic. For every registry state, key `k` and
deadline, if the call returns null then the registry state after the call is the
state before it. -/
theorem accessOrCreate_null_unchanged (r r1 : OutgoingTransferRegistry)
    (k : OutgoingTransferRegistryKey) (t : MonotonicTime)
    (h : r.accessOrCreate k t = some (none, r1)) : r1 = r := by
  cases ht : t.isZero
  · cases hp : r.map_.access k with
    | some p =>
      rw [OutgoingTransferRegistry.accessOrCreate_hit ht hp] at h
      simp at h
    | none =>
      cases hroom : r.map_.hasRoom
      · rw [OutgoingTransferRegistry.accessOrCreate_full ht hp hroom] at h
        simp only [Option.some.injEq, Prod.mk.injEq, true_and] at h
        exact h.symm
      · rw [OutgoingTransferRegistry.accessOrCreate_insert ht hp hroom] at h
        simp at h
  · simp [OutgoingTransferRegistry.accessOrCreate, ht] at h

/-- Witness for C5: the failing `accessOrCreate` of `exK3` on the full `exFull`. -/
theorem accessOrCreate_null_unchanged_witness :
    exFull.accessOrCreate exK3 ⟨300⟩ = some (none, exFull) ∧ exFull = exFull :=
  ⟨by decide, accessOrCreate_null_unchanged exFull exFull exK3 ⟨300⟩ (by decide)⟩

/-- C6: the deadline refresh decides expiry. For every reachable registry state,
key `k` and deadline `t` such that `accessOrCreate(k, t)` succeeds (returning the
pointer `p`), the entry of `k` then has deadline `t` and the counter `c` read
through `p`; a following `cleanup(now)` with `now < t` leaves the entry of `k` in
the store with deadline `t` and counter `c`, and a following `cleanup(now)` with
`now >= t` removes it. -/
theorem refresh_decides_expiry (r r1 : OutgoingTransferRegistry)
    (k : OutgoingTransferRegistryKey) (t : MonotonicTime) (p : Ptr)
    (hr : Reachable r) (h : r.accessOrCreate k t = some (some p, r1)) :
    ∃ c, r1.readTid p = some c ∧ r1.entryOf k = some ⟨t, c⟩ ∧
      (∀ now : MonotonicTime, now.usec < t.usec →
        ∃ r2, r1.cleanup now = some r2 ∧ r2.entryOf k = some ⟨t, c⟩) ∧
      (∀ now : MonotonicTime, t.usec ≤ now.usec →
        ∃ r2, r1.cleanup now = some r2 ∧ r2.map_.access k = none ∧
          r2.entryOf k = none) := by
  obtain ⟨-, hacc, c, hderef, -, -⟩ := accessOrCreate_success h
  obtain ⟨hd1, hu1⟩ := accessOrCreate_inv (reachable_inv hr).1 (reachable_inv hr).2 h
  have hent : r1.entryOf k = some ⟨t, c⟩ := by
    simp [OutgoingTransferRegistry.entryOf, hacc, hderef]
  exact ⟨c, by simp [OutgoingTransferRegistry.readTid, hderef], hent,
    fun now hn => cleanup_keeps hd1 hent hn,
    fun now hn => cleanup_drops hd1 hu1 hent hn⟩

/-- Witness for C6: refreshing `exK2` in `exFull` with deadline 300. -/
theorem refresh_decides_expiry_witness :
    Reachable exFull ∧ exFull.accessOrCreate exK2 ⟨300⟩ = some (some 1, exRefreshed) ∧
    ∃ c, exRefreshed.readTid 1 = some c ∧ exRefreshed.entryOf exK2 = some ⟨⟨300⟩, c⟩ ∧
      (∀ now : MonotonicTime, now.usec < (⟨300⟩ : MonotonicTime).usec →
        ∃ r2, exRefreshed.cleanup now = some r2 ∧ r2.entryOf exK2 = some ⟨⟨300⟩, c⟩) ∧
      (∀ now : MonotonicTime, (⟨300⟩ : MonotonicTime).usec ≤ now.usec →
        ∃ r2, exRefreshed.cleanup now = some r2 ∧ r2.map_.access exK2 = none ∧
          r2.entryOf exK2 = none) :=
  ⟨⟨2, ⟨0⟩, exCalls, by decide⟩, by decide,
    refresh_decides_expiry exFull exRefreshed exK2 ⟨300⟩ 1 ⟨2, ⟨0⟩, exCalls, by decide⟩
      (by decide)⟩

/-- C7: recreating a key after its expiry resets the counter. For every reachable
registry state in which key `k` is held with deadline `d` and any counter `c`,
`cleanup(now)` with `now >= d` passes and leaves no entry for `k`, so that the next
`accessOrCreate(k, t)` with a non-zero `t` takes the not-found path; it passes its
assertion and, when it returns a non-null pointer, the counter read through it is
the default `TransferID` and the entry of `k` has deadline `t`, whatever `c` was. -/
theorem recreate_after_expiry_resets (r : OutgoingTransferRegistry)
    (k : OutgoingTransferRegistryKey) (d : MonotonicTime) (c : TransferID)
    (now : MonotonicTime) (hr : Reachable r) (hk : r.entryOf k = some ⟨d, c⟩)
    (hexp : d.usec ≤ now.usec) :
    ∃ r1, r.cleanup now = some r1 ∧ r1.map_.access k = none ∧
      ∀ t : MonotonicTime, t.isZero = false →
        ∃ res r2, r1.accessOrCreate k t = some (res, r2) ∧
          ∀ p, res = some p →
            r2.readTid p = some TransferID.default ∧
            r2.entryOf k = some ⟨t, TransferID.default⟩ := by
  obtain ⟨hd, hu⟩ := reachable_inv hr
  obtain ⟨r1, hc, hacc, -⟩ := cleanup_drops hd hu hk hexp
  refine ⟨r1, hc, hacc, fun t ht => ?_⟩
  obtain ⟨res, r2, h2⟩ := accessOrCreate_total r1 k ht
  refine ⟨res, r2, h2, fun p hp => ?_⟩
  subst hp
  obtain ⟨-, hacc2, c2, hderef, -, hdef⟩ := accessOrCreate_success h2
  obtain ⟨rfl, -⟩ := hdef hacc
  exact ⟨by simp [OutgoingTransferRegistry.readTid, hderef],
    by simp [OutgoingTransferRegistry.entryOf, hacc2, hderef]⟩

/-- Witness for C7: `exK1` (deadline 100, counter 3) in `exFull`, swept at 150. -/
theorem recreate_after_expiry_resets_witness :
    Reachable exFull ∧ exFull.entryOf exK1 = some ⟨⟨100⟩, ⟨3⟩⟩ ∧
    (⟨100⟩ : MonotonicTime).usec ≤ (⟨150⟩ : MonotonicTime).usec ∧
    ∃ r1, exFull.cleanup ⟨150⟩ = some r1 ∧ r1.map_.access exK1 = none ∧
      ∀ t : MonotonicTime, t.isZero = false →
        ∃ res r2, r1.accessOrCreate exK1 t = some (res, r2) ∧
          ∀ p, res = some p →
            r2.readTid p = some TransferID.default ∧
            r2.entryOf exK1 = some ⟨t, TransferID.default⟩ :=
  ⟨⟨2, ⟨0⟩, exCalls, by decide⟩, by decide, by decide,
    recreate_after_expiry_resets exFull exK1 ⟨100⟩ ⟨3⟩ ⟨150⟩ ⟨2, ⟨0⟩, exCalls, by decide⟩
      (by decide) (by decide)⟩

/-- C8: isolation between keys. For every two keys `k` and `k2` that `operator==`
tells apart: (1) in every registry state, an `accessOrCreate(k, t)` with non-zero
`t` passes its assertion and, whether it hits, inserts or fails, leaves what is
found for `k2` (presence, deadline and counter) as it was; (2) in every reachable
registry state, a `cleanup(now)` that removes the expired entry of `k` leaves the
entry of `k2`, when that one is not expired, with the same deadline and counter. -/
theorem isolation_between_keys (k k2 : OutgoingTransferRegistryKey)
    (hne : k.beq k2 = false) :
    (∀ (r : OutgoingTransferRegistry) (t : MonotonicTime), t.isZero = false →
      ∃ res r1, r.accessOrCreate k t = some (res, r1) ∧ r1.entryOf k2 = r.entryOf k2) ∧
    (∀ (r : OutgoingTransferRegistry) (now : MonotonicTime) (v v2 : Value),
      Reachable r → r.entryOf k = some v → v.deadline.usec ≤ now.usec →
      r.entryOf k2 = some v2 → now.usec < v2.deadline.usec →
      ∃ r1, r.cleanup now = some r1 ∧ r1.map_.access k = none ∧
        r1.entryOf k2 = some v2) := by
  constructor
  · intro r t ht
    obtain ⟨res, r1, h⟩ := accessOrCreate_total r k ht
    exact ⟨res, r1, h, accessOrCreate_other hne h⟩
  · intro r now v v2 hr hk hexp hk2 hlate
    obtain ⟨hd, hu⟩ := reachable_inv hr
    obtain ⟨r1, hc, hacc, -⟩ := cleanup_drops hd hu hk hexp
    obtain ⟨r1b, hcb, hkeep⟩ := cleanup_keeps hd hk2 hlate
    rw [hc] at hcb
    cases hcb
    exact ⟨r1, hc, hacc, hkeep⟩

/-- Witness for C8: the keys `exK1` and `exK2` in `exFull`; a refresh of `exK1` and
a sweep at 150 that removes `exK1`. -/
theorem isolation_between_keys_witness :
    exK1.beq exK2 = false ∧
    (∃ res r1, exFull.accessOrCreate exK1 ⟨500⟩ = some (res, r1) ∧
      r1.entryOf exK2 = exFull.entryOf exK2) ∧
    (∃ r1, exFull.cleanup ⟨150⟩ = some r1 ∧ r1.map_.access exK1 = none ∧
      r1.entryOf exK2 = some ⟨⟨200⟩, ⟨4⟩⟩) :=
  ⟨by decide,
    (isolation_between_keys exK1 exK2 (by decide)).1 exFull ⟨500⟩ (by decide),
    (isolation_between_keys exK1 exK2 (by decide)).2 exFull ⟨150⟩ ⟨⟨100⟩, ⟨3⟩⟩
      ⟨⟨200⟩, ⟨4⟩⟩ ⟨2, ⟨0⟩, exCalls, by decide⟩ (by decide) (by decide) (by decide)
      (by decide)⟩

/-- C9: uniqueness of the entry of a key. (1) In every registry state reachable from
the empty registry, no two entries have equal keys. (2) After a successful
`accessOrCreate(k, t1)` that returned the pointer `p1`, when the caller writes a
counter value `v` through `p1`, the next `accessOrCreate` with a key equal to `k`
and any non-zero deadline succeeds, returns the same pointer `p1`, the value read
through it is `v`, and the call adds no entry. (3) The same holds when a
`cleanup(now)` with `now < t1`, which does not expire `k`, comes between the write
and the second call: the second call succeeds, the value read through the pointer
it returns is `v`, and it adds no entry. -/
theorem unique_entry_per_key :
    (∀ r : OutgoingTransferRegistry, Reachable r → KeysUnique r) ∧
    (∀ (r r1 : OutgoingTransferRegistry) (k k2 : OutgoingTransferRegistryKey)
      (t1 t2 : MonotonicTime) (p1 : Ptr) (v : TransferID),
      k.beq k2 = true → r.accessOrCreate k t1 = some (some p1, r1) →
      t2.isZero = false →
      ∃ rw r2, r1.writeTid p1 v = some rw ∧
        rw.accessOrCreate k2 t2 = some (some p1, r2) ∧
        r2.readTid p1 = some v ∧ r2.size = r1.size) ∧
    (∀ (r r1 : OutgoingTransferRegistry) (k k2 : OutgoingTransferRegistryKey)
      (t1 t2 now : MonotonicTime) (p1 : Ptr) (v : TransferID),
      Reachable r → k.beq k2 = true → r.accessOrCreate k t1 = some (some p1, r1) →
      t2.isZero = false → now.usec < t1.usec →
      ∃ rw rc p2 r2, r1.writeTid p1 v = some rw ∧ rw.cleanup now = some rc ∧
        rc.accessOrCreate k2 t2 = some (some p2, r2) ∧
        r2.readTid p2 = some v ∧ r2.size = rc.size) := by
  refine ⟨fun r hr => (reachable_inv hr).2, ?_, ?_⟩
  · intro r r1 k k2 t1 t2 p1 v hkk h ht2
    rw [OutgoingTransferRegistryKey.beq_iff_eq] at hkk
    subst hkk
    obtain ⟨-, hacc, c, hderef, -, -⟩ := accessOrCreate_success h
    obtain ⟨rw, hw, haccw, -, hentw, hsizew, -, -⟩ := writeTid_entry v hacc hderef
    have h2 := OutgoingTransferRegistry.accessOrCreate_hit ht2 haccw
    obtain ⟨-, -, c2, hderef2, hold, -⟩ := accessOrCreate_success h2
    obtain ⟨rfl, -, hsize2⟩ := hold _ hentw
    exact ⟨rw, _, hw, h2, by simp [OutgoingTransferRegistry.readTid, hderef2],
      by rw [hsize2, hsizew]⟩
  · intro r r1 k k2 t1 t2 now p1 v hr hkk h ht2 hnow
    rw [OutgoingTransferRegistryKey.beq_iff_eq] at hkk
    subst hkk
    obtain ⟨-, hacc, c, hderef, -, -⟩ := accessOrCreate_success h
    obtain ⟨hd1, -⟩ := accessOrCreate_inv (reachable_inv hr).1 (reachable_inv hr).2 h
    obtain ⟨rw, hw, -, -, hentw, -, hdw, -⟩ := writeTid_entry v hacc hderef
    obtain ⟨rc, hc, hentc⟩ := cleanup_keeps (hdw hd1) hentw hnow
    obtain ⟨p2, hacc2, -⟩ := entryOf_some_access hentc
    have h2 := OutgoingTransferRegistry.accessOrCreate_hit ht2 hacc2
    obtain ⟨-, -, c2, hderef2, hold, -⟩ := accessOrCreate_success h2
    obtain ⟨rfl, -, hsize2⟩ := hold _ hentc
    exact ⟨rw, rc, p2, _, hw, hc, h2, by simp [OutgoingTransferRegistry.readTid, hderef2],
      hsize2⟩

/-- Witness for C9: `exFull` is reachable; `exK1` is created in `exEmpty` with
deadline 100, the counter 5 is written, and `exK1` is accessed again with deadline
200, directly and after a sweep at 50. -/
theorem unique_entry_per_key_witness :
    KeysUnique exFull ∧
    (∃ rw r2, exOne.writeTid 0 ⟨5⟩ = some rw ∧
      rw.accessOrCreate exK1 ⟨200⟩ = some (some 0, r2) ∧
      r2.readTid 0 = some ⟨5⟩ ∧ r2.size = exOne.size) ∧
    (∃ rw rc p2 r2, exOne.writeTid 0 ⟨5⟩ = some rw ∧ rw.cleanup ⟨50⟩ = some rc ∧
      rc.accessOrCreate exK1 ⟨200⟩ = some (some p2, r2) ∧
      r2.readTid p2 = some ⟨5⟩ ∧ r2.size = rc.size) :=
  ⟨unique_entry_per_key.1 exFull ⟨2, ⟨0⟩, exCalls, by decide⟩,
    unique_entry_per_key.2.1 exEmpty exOne exK1 exK1 ⟨100⟩ ⟨200⟩ 0 ⟨5⟩ (by decide)
      (by decide) (by decide),
    unique_entry_per_key.2.2 exEmpty exOne exK1 exK1 ⟨100⟩ ⟨200⟩ ⟨50⟩ 0 ⟨5⟩
      ⟨2, ⟨0⟩, [], by decide⟩ (by decide) (by decide) (by decide) (by decide)⟩

/-- C10: bounded capacity. For every registry whose store is filled (the number of
entries has reached the static capacity plus what the overflow allocator can serve,
which is nothing when overflow is disabled), `accessOrCreate` with a non-zero
deadline for any key not in the store returns null and leaves the registry as it
was; afterwards `accessOrCreate` for each key that the store holds still returns
the non-null pointer to the entry of that key, and the counter read through it is
the counter the entry had. -/
theorem bounded_capacity (r : OutgoingTransferRegistry) (k : OutgoingTransferRegistryKey)
    (t : MonotonicTime)
    (hfull : r.map_.NumStaticEntries + r.map_.allocator_.ceiling ≤ r.map_.entries.length)
    (habs : r.map_.access k = none) (ht : t.isZero = false) :
    r.accessOrCreate k t = some (none, r) ∧
    ∀ (k2 : OutgoingTransferRegistryKey) (p2 : Ptr) (t2 : MonotonicTime),
      r.map_.access k2 = some p2 → t2.isZero = false →
      ∃ v r2, r.map_.deref p2 = some v ∧
        r.accessOrCreate k2 t2 = some (some p2, r2) ∧ r2.readTid p2 = some v.tid := by
  have hroom : r.map_.hasRoom = false := by
    simp only [Map.hasRoom, decide_eq_false_iff_not, Nat.not_lt]
    exact hfull
  refine ⟨OutgoingTransferRegistry.accessOrCreate_full ht habs hroom, ?_⟩
  intro k2 p2 t2 hp2 ht2
  obtain ⟨w, hw⟩ := locate_get hp2
  have hder : r.map_.deref p2 = some w := by simp [Map.deref, hw]
  have h2 := OutgoingTransferRegistry.accessOrCreate_hit ht2 hp2
  obtain ⟨-, -, c2, hderef2, hold, -⟩ := accessOrCreate_success h2
  have hent : r.entryOf k2 = some w := by
    simp [OutgoingTransferRegistry.entryOf, hp2, hder]
  obtain ⟨rfl, -, -⟩ := hold _ hent
  exact ⟨w, _, hder, h2, by simp [OutgoingTransferRegistry.readTid, hderef2]⟩

/-- Witness for C10: `exFull` holds two entries, has two static entries and no
overflow; `exK3` is not in the store. -/
theorem bounded_capacity_witness :
    exFull.map_.NumStaticEntries + exFull.map_.allocator_.ceiling
      ≤ exFull.map_.entries.length ∧
    exFull.map_.access exK3 = none ∧ (⟨300⟩ : MonotonicTime).isZero = false ∧
    exFull.accessOrCreate exK3 ⟨300⟩ = some (none, exFull) ∧
    ∀ (k2 : OutgoingTransferRegistryKey) (p2 : Ptr) (t2 : MonotonicTime),
      exFull.map_.access k2 = some p2 → t2.isZero = false →
      ∃ v r2, exFull.map_.deref p2 = some v ∧
        exFull.accessOrCreate k2 t2 = some (some p2, r2) ∧
        r2.readTid p2 = some v.tid :=
  ⟨by decide, by decide, by decide,
    bounded_capacity exFull exK3 ⟨300⟩ (by decide) (by decide) (by decide)⟩

/-! ## The claims on the key -/

theorem TransferType.toUInt8_injective {a b : TransferType}
    (h : a.toUInt8 = b.toUInt8) : a = b := by
  cases a <;> cases b <;> first | rfl | (simp [TransferType.toUInt8] at h)

theorem TransferType.toUInt8_lt (a : TransferType) : a.toUInt8 < 0xFF := by
  cases a <;> simp [TransferType.toUInt8]

/-- What the three-argument constructor builds when its assertions pass. -/
theorem OutgoingTransferRegistryKey.make_eq_some {d : DataTypeID} {tt : TransferType}
    {n : NodeID} {k : OutgoingTransferRegistryKey}
    (h : OutgoingTransferRegistryKey.make d tt n = some k) :
    k = ⟨d, tt.toUInt8, n⟩ ∧
      OutgoingTransferRegistryKey.assertBroadcastConsistent tt n = true ∧
      OutgoingTransferRegistryKey.assertNotServiceResponse tt = true := by
  unfold OutgoingTransferRegistryKey.make at h
  split at h
  · split at h
    · rename_i h1 h2
      cases h
      exact ⟨rfl, h1, h2⟩
    · cases h
  · cases h

/-- A key whose `transfer_type_` is not `0xFF` differs from the default-constructed
key. -/
theorem OutgoingTransferRegistryKey.beq_mkDefault (k : OutgoingTransferRegistryKey)
    (dd : DataTypeID) (dn : NodeID) (h : k.transfer_type_ ≠ 0xFF) :
    k.beq (OutgoingTransferRegistryKey.mkDefault dd dn) = false := by
  rw [OutgoingTransferRegistryKey.beq_eq_false_iff]
  intro e
  apply h
  rw [e]
  rfl

/-- C11: key equality is structural over all three fields. (1) For every two keys
built by the three-argument constructor, `operator==` returns true if and only if
their data type identifiers, transfer types and destination node identifiers are
pairwise equal. (2) `operator==` is reflexive, (3) symmetric and (4) transitive.
(5) Two keys built by the constructor that differ in any one of the three arguments
are unequal. -/
theorem key_equality_structural :
    (∀ (d1 d2 : DataTypeID) (tt1 tt2 : TransferType) (n1 n2 : NodeID)
      (a b : OutgoingTransferRegistryKey),
      OutgoingTransferRegistryKey.make d1 tt1 n1 = some a →
      OutgoingTransferRegistryKey.make d2 tt2 n2 = some b →
      (a.beq b = true ↔ d1 = d2 ∧ tt1 = tt2 ∧ n1 = n2)) ∧
    (∀ a : OutgoingTransferRegistryKey, a.beq a = true) ∧
    (∀ a b : OutgoingTransferRegistryKey, a.beq b = true → b.beq a = true) ∧
    (∀ a b c : OutgoingTransferRegistryKey,
      a.beq b = true → b.beq c = true → a.beq c = true) ∧
    (∀ (d1 d2 : DataTypeID) (tt1 tt2 : TransferType) (n1 n2 : NodeID)
      (a b : OutgoingTransferRegistryKey),
      OutgoingTransferRegistryKey.make d1 tt1 n1 = some a →
      OutgoingTransferRegistryKey.make d2 tt2 n2 = some b →
      (d1 ≠ d2 ∨ tt1 ≠ tt2 ∨ n1 ≠ n2) → a.beq b = false) := by
  have key : ∀ (d1 d2 : DataTypeID) (tt1 tt2 : TransferType) (n1 n2 : NodeID)
      (a b : OutgoingTransferRegistryKey),
      OutgoingTransferRegistryKey.make d1 tt1 n1 = some a →
      OutgoingTransferRegistryKey.make d2 tt2 n2 = some b →
      (a.beq b = true ↔ d1 = d2 ∧ tt1 = tt2 ∧ n1 = n2) := by
    intro d1 d2 tt1 tt2 n1 n2 a b ha hb
    obtain ⟨rfl, -, -⟩ := OutgoingTransferRegistryKey.make_eq_some ha
    obtain ⟨rfl, -, -⟩ := OutgoingTransferRegistryKey.make_eq_some hb
    rw [OutgoingTransferRegistryKey.beq_iff_eq]
    constructor
    · intro e
      injection e with e1 e2 e3
      exact ⟨e1, TransferType.toUInt8_injective e2, e3⟩
    · rintro ⟨rfl, rfl, rfl⟩
      rfl
  refine ⟨key, OutgoingTransferRegistryKey.beq_self, ?_, ?_, ?_⟩
  · intro a b h
    rw [OutgoingTransferRegistryKey.beq_comm]
    exact h
  · intro a b c hab hbc
    rw [OutgoingTransferRegistryKey.beq_iff_eq] at hab hbc ⊢
    exact hab.trans hbc
  · intro d1 d2 tt1 tt2 n1 n2 a b ha hb hne
    cases h : a.beq b
    · rfl
    · obtain ⟨e1, e2, e3⟩ := (key d1 d2 tt1 tt2 n1 n2 a b ha hb).1 h
      rcases hne with h1 | h1 | h1
      · exact absurd e1 h1
      · exact absurd e2 h1
      · exact absurd e3 h1

/-- Witness for C11: the keys `exK1` and `exK2` are built by the constructor from the
same data type identifier and different transfer types and destinations. -/
theorem key_equality_structural_witness :
    OutgoingTransferRegistryKey.make ⟨10⟩ .TransferTypeMessageBroadcast ⟨0⟩ = some exK1 ∧
    OutgoingTransferRegistryKey.make ⟨10⟩ .TransferTypeServiceRequest ⟨5⟩ = some exK2 ∧
    (exK1.beq exK2 = true ↔
      (⟨10⟩ : DataTypeID) = ⟨10⟩ ∧
      TransferType.TransferTypeMessageBroadcast = TransferType.TransferTypeServiceRequest ∧
      (⟨0⟩ : NodeID) = ⟨5⟩) ∧
    exK1.beq exK2 = false :=
  ⟨by decide, by decide,
    key_equality_structural.1 ⟨10⟩ ⟨10⟩ .TransferTypeMessageBroadcast
      .TransferTypeServiceRequest ⟨0⟩ ⟨5⟩ exK1 exK2 (by decide) (by decide),
    key_equality_structural.2.2.2.2 ⟨10⟩ ⟨10⟩ .TransferTypeMessageBroadcast
      .TransferTypeServiceRequest ⟨0⟩ ⟨5⟩ exK1 exK2 (by decide) (by decide)
      (Or.inr (Or.inl (by decide)))⟩

/-! ## The claims on the invariant and on sequences of calls -/

/-- On a store with non-zero deadlines a method call passes its assertions. -/
theorem step_total {r : OutgoingTransferRegistry} {c : Call}
    (hd : DeadlinesNonZero r) (hc : c.isMethodCall = true) :
    ∃ r1, r.step c = some r1 := by
  cases c with
  | accessOrCreate k t =>
    have ht : t.isZero = false := by simpa [Call.isMethodCall] using hc
    obtain ⟨res, r1, h⟩ := accessOrCreate_total r k ht
    exact ⟨r1, by simp [OutgoingTransferRegistry.step, h]⟩
  | cleanup ts => exact ⟨_, OutgoingTransferRegistry.cleanup_eq ts hd⟩
  | writeTid p tid => simp [Call.isMethodCall] at hc

/-- A sequence of method calls, started in a state with non-zero deadlines and
unique keys, passes every assertion and ends in such a state. -/
theorem run_total :
    ∀ (calls : List Call) {r : OutgoingTransferRegistry},
      DeadlinesNonZero r → KeysUnique r → (∀ c ∈ calls, c.isMethodCall = true) →
        ∃ r1, r.run calls = some r1 ∧ DeadlinesNonZero r1 ∧ KeysUnique r1
  | [], r, hd, hu, _ => ⟨r, rfl, hd, hu⟩
  | c :: cs, r, hd, hu, hc => by
    obtain ⟨r2, h2⟩ := step_total hd (hc c (by simp))
    obtain ⟨hd2, hu2⟩ := step_inv hd hu h2
    obtain ⟨r1, h1, hd1, hu1⟩ := run_total cs hd2 hu2 (fun x hx => hc x (by simp [hx]))
    exact ⟨r1, by simp [OutgoingTransferRegistry.run, h2, h1], hd1, hu1⟩

theorem new_inv (n : Nat) (a : IAllocator) :
    DeadlinesNonZero (OutgoingTransferRegistry.new n a) ∧
      KeysUnique (OutgoingTransferRegistry.new n a) := by
  constructor
  · intro e he
    simp [OutgoingTransferRegistry.new, Map.new] at he
  · simp [KeysUnique, OutgoingTransferRegistry.new, Map.new]

theorem predicate_passes {r : OutgoingTransferRegistry} (hd : DeadlinesNonZero r)
    (ts : MonotonicTime) (e : KVPair) (he : e ∈ r.map_.entries) :
    DeadlineExpiredPredicate.call ⟨ts⟩ e.1 e.2 = some (e.2.deadline.le ts) := by
  simp [DeadlineExpiredPredicate.call, hd e he]

/-- C12: invariant I3. (1) Every sequence of `accessOrCreate` calls with non-zero
deadlines and of `cleanup` calls with any timestamps, started on the empty registry,
passes all its assertions, and in the state it reaches every entry of the store has
a non-zero deadline. (2) In every reachable registry state every entry of the store
has a non-zero deadline; consequently, for every timestamp, the assertion of the
expiry predicate passes on every entry and `cleanup` runs to its end. -/
theorem deadlines_nonzero_invariant :
    (∀ (n : Nat) (a : IAllocator) (calls : List Call),
      (∀ c ∈ calls, c.isMethodCall = true) →
      ∃ r, (OutgoingTransferRegistry.new n a).run calls = some r ∧
        ∀ e ∈ r.map_.entries, e.2.deadline.isZero = false) ∧
    (∀ r : OutgoingTransferRegistry, Reachable r →
      (∀ e ∈ r.map_.entries, e.2.deadline.isZero = false) ∧
      ∀ ts : MonotonicTime,
        (∀ e ∈ r.map_.entries,
          DeadlineExpiredPredicate.call ⟨ts⟩ e.1 e.2 = some (e.2.deadline.le ts)) ∧
        ∃ r1, r.cleanup ts = some r1) := by
  constructor
  · intro n a calls hc
    obtain ⟨r, hr, hd, -⟩ := run_total calls (new_inv n a).1 (new_inv n a).2 hc
    exact ⟨r, hr, hd⟩
  · intro r hr
    have hd := (reachable_inv hr).1
    exact ⟨hd, fun ts => ⟨predicate_passes hd ts,
      _, OutgoingTransferRegistry.cleanup_eq ts hd⟩⟩

/-- Witness for C12: the calls `exMethodCalls` on `exEmpty`, and the reachable state
`exFull`. -/
theorem deadlines_nonzero_invariant_witness :
    (∀ c ∈ exMethodCalls, c.isMethodCall = true) ∧
    (∃ r, (OutgoingTransferRegistry.new 2 ⟨0⟩).run exMethodCalls = some r ∧
      ∀ e ∈ r.map_.entries, e.2.deadline.isZero = false) ∧
    Reachable exFull ∧
    ((∀ e ∈ exFull.map_.entries, e.2.deadline.isZero = false) ∧
      ∀ ts : MonotonicTime,
        (∀ e ∈ exFull.map_.entries,
          DeadlineExpiredPredicate.call ⟨ts⟩ e.1 e.2 = some (e.2.deadline.le ts)) ∧
        ∃ r1, exFull.cleanup ts = some r1) :=
  ⟨by decide, deadlines_nonzero_invariant.1 2 ⟨0⟩ exMethodCalls (by decide),
    ⟨2, ⟨0⟩, exCalls, by decide⟩,
    deadlines_nonzero_invariant.2 exFull ⟨2, ⟨0⟩, exCalls, by decide⟩⟩

/-- C13: the scenario of the specification. On an empty registry with room for at
least two entries, with `K1 = exK1` (data type 10, message broadcast, broadcast
destination) and `K2 = exK2` (data type 10, service request, node 5), both built by
the constructor: `accessOrCreate(K1, 100)` returns a pointer to a default counter;
`accessOrCreate(K2, 200)` returns a different pointer, to a default counter; the
caller advances the counter of `K2` to any value `v`; `cleanup(150)` removes the
entry of `K1` and only that one; `accessOrCreate(K1, 300)` then returns a pointer
to a new default counter; and `accessOrCreate(K2, 250)` adds no entry and returns
the pointer to the entry of `K2`, with deadline 250 and counter `v`. -/
theorem spec_scenario (n : Nat) (a : IAllocator) (v : TransferID)
    (hroom : 2 ≤ n + a.ceiling) :
    OutgoingTransferRegistryKey.make ⟨10⟩ .TransferTypeMessageBroadcast NodeID.Broadcast
      = some exK1 ∧
    OutgoingTransferRegistryKey.make ⟨10⟩ .TransferTypeServiceRequest ⟨5⟩ = some exK2 ∧
    ∃ (p1 p2 p4 p5 : Ptr) (r1 r2 r2w r3 r4 r5 : OutgoingTransferRegistry),
      (OutgoingTransferRegistry.new n a).accessOrCreate exK1 ⟨100⟩ = some (some p1, r1) ∧
      r1.readTid p1 = some TransferID.default ∧
      r1.accessOrCreate exK2 ⟨200⟩ = some (some p2, r2) ∧
      p2 ≠ p1 ∧ r2.readTid p2 = some TransferID.default ∧
      r2.writeTid p2 v = some r2w ∧
      r2w.cleanup ⟨150⟩ = some r3 ∧
      r3.entryOf exK1 = none ∧
      r3.map_.entries = [(exK2, ⟨⟨200⟩, v⟩)] ∧
      r3.accessOrCreate exK1 ⟨300⟩ = some (some p4, r4) ∧
      r4.readTid p4 = some TransferID.default ∧
      r4.entryOf exK1 = some ⟨⟨300⟩, TransferID.default⟩ ∧
      r4.accessOrCreate exK2 ⟨250⟩ = some (some p5, r5) ∧
      r4.map_.access exK2 = some p5 ∧
      r5.readTid p5 = some v ∧
      r5.entryOf exK2 = some ⟨⟨250⟩, v⟩ ∧
      r5.size = r4.size := by
  have hz : ∀ m : Nat, (⟨m + 1⟩ : MonotonicTime).isZero = false := fun m => by
    simp [MonotonicTime.isZero]
  have hroom0 : ∀ es : List KVPair, es.length < 2 →
      (⟨n, a, es⟩ : Map).hasRoom = true := fun es hes =>
    decide_eq_true (show es.length < n + a.ceiling by omega)
  refine ⟨by decide, by decide, 0, 1, 1, 0,
    ⟨⟨n, a, [(exK1, ⟨⟨100⟩, TransferID.default⟩)]⟩⟩,
    ⟨⟨n, a, [(exK1, ⟨⟨100⟩, TransferID.default⟩), (exK2, ⟨⟨200⟩, TransferID.default⟩)]⟩⟩,
    ⟨⟨n, a, [(exK1, ⟨⟨100⟩, TransferID.default⟩), (exK2, ⟨⟨200⟩, v⟩)]⟩⟩,
    ⟨⟨n, a, [(exK2, ⟨⟨200⟩, v⟩)]⟩⟩,
    ⟨⟨n, a, [(exK2, ⟨⟨200⟩, v⟩), (exK1, ⟨⟨300⟩, TransferID.default⟩)]⟩⟩,
    ⟨⟨n, a, [(exK2, ⟨⟨250⟩, v⟩), (exK1, ⟨⟨300⟩, TransferID.default⟩)]⟩⟩,
    ?_, rfl, ?_, by decide, rfl, rfl, ?_, rfl, rfl, ?_, rfl, rfl, ?_, rfl, rfl, rfl, rfl⟩
  · exact OutgoingTransferRegistry.accessOrCreate_insert (hz 99) rfl (hroom0 [] (by simp))
  · exact OutgoingTransferRegistry.accessOrCreate_insert (hz 199) rfl
      (hroom0 [_] (by simp))
  · simp [OutgoingTransferRegistry.cleanup, Map.removeWhere, sweep,
      DeadlineExpiredPredicate.call, MonotonicTime.le, MonotonicTime.isZero,
      TransferID.default]
  · exact OutgoingTransferRegistry.accessOrCreate_insert (hz 299) rfl
      (hroom0 [_] (by simp))
  · exact OutgoingTransferRegistry.accessOrCreate_hit (hz 249) rfl

/-- Witness for C13: the scenario on a registry with two static entries and no
overflow, the caller advancing the counter of `K2` to 6. -/
theorem spec_scenario_witness :
    2 ≤ 2 + (⟨0⟩ : IAllocator).ceiling ∧
    ∃ (p1 p2 p4 p5 : Ptr) (r1 r2 r2w r3 r4 r5 : OutgoingTransferRegistry),
      (OutgoingTransferRegistry.new 2 ⟨0⟩).accessOrCreate exK1 ⟨100⟩ = some (some p1, r1) ∧
      r1.readTid p1 = some TransferID.default ∧
      r1.accessOrCreate exK2 ⟨200⟩ = some (some p2, r2) ∧
      p2 ≠ p1 ∧ r2.readTid p2 = some TransferID.default ∧
      r2.writeTid p2 ⟨6⟩ = some r2w ∧
      r2w.cleanup ⟨150⟩ = some r3 ∧
      r3.entryOf exK1 = none ∧
      r3.map_.entries = [(exK2, ⟨⟨200⟩, ⟨6⟩⟩)] ∧
      r3.accessOrCreate exK1 ⟨300⟩ = some (some p4, r4) ∧
      r4.readTid p4 = some TransferID.default ∧
      r4.entryOf exK1 = some ⟨⟨300⟩, TransferID.default⟩ ∧
      r4.accessOrCreate exK2 ⟨250⟩ = some (some p5, r5) ∧
      r4.map_.access exK2 = some p5 ∧
      r5.readTid p5 = some ⟨6⟩ ∧
      r5.entryOf exK2 = some ⟨⟨250⟩, ⟨6⟩⟩ ∧
      r5.size = r4.size :=
  ⟨by decide, (spec_scenario 2 ⟨0⟩ ⟨6⟩ (by decide)).2.2⟩

/-- C14: the preconditions of key construction. For every data type identifier,
transfer type and destination node identifier, the three-argument constructor passes
both of its assertions (and so builds a key) if and only if the transfer type is
message broadcast exactly when the destination is the broadcast marker, and the
transfer type is not service response; when they pass, the three members of the key
are the three arguments. -/
theorem key_construction_preconditions (d : DataTypeID) (tt : TransferType) (n : NodeID) :
    ((OutgoingTransferRegistryKey.assertBroadcastConsistent tt n = true ∧
        OutgoingTransferRegistryKey.assertNotServiceResponse tt = true) ↔
      ((tt = TransferType.TransferTypeMessageBroadcast ↔ n.isBroadcast = true) ∧
        tt ≠ TransferType.TransferTypeServiceResponse)) ∧
    ((OutgoingTransferRegistryKey.make d tt n).isSome = true ↔
      ((tt = TransferType.TransferTypeMessageBroadcast ↔ n.isBroadcast = true) ∧
        tt ≠ TransferType.TransferTypeServiceResponse)) ∧
    (∀ k, OutgoingTransferRegistryKey.make d tt n = some k →
      k.data_type_id_ = d ∧ k.transfer_type_ = tt.toUInt8 ∧ k.destination_node_id_ = n) := by
  refine ⟨?_, ?_, ?_⟩
  · cases tt <;> cases hb : n.isBroadcast <;>
      simp [OutgoingTransferRegistryKey.assertBroadcastConsistent,
        OutgoingTransferRegistryKey.assertNotServiceResponse, hb]
  · cases tt <;> cases hb : n.isBroadcast <;>
      simp [OutgoingTransferRegistryKey.make,
        OutgoingTransferRegistryKey.assertBroadcastConsistent,
        OutgoingTransferRegistryKey.assertNotServiceResponse, hb]
  · intro k hk
    obtain ⟨rfl, -, -⟩ := OutgoingTransferRegistryKey.make_eq_some hk
    exact ⟨rfl, rfl, rfl⟩

/-- Witness for C14: the construction of `exK2` (service request to node 5). -/
theorem key_construction_preconditions_witness :
    OutgoingTransferRegistryKey.make ⟨10⟩ .TransferTypeServiceRequest ⟨5⟩ = some exK2 ∧
    exK2.data_type_id_ = ⟨10⟩ ∧
    exK2.transfer_type_ = TransferType.TransferTypeServiceRequest.toUInt8 ∧
    exK2.destination_node_id_ = ⟨5⟩ :=
  ⟨by decide,
    (key_construction_preconditions ⟨10⟩ .TransferTypeServiceRequest ⟨5⟩).2.2 exK2
      (by decide)⟩

theorem storeAt_storeAt (f g : Value → Value) :
    ∀ (p : Ptr) (es : List KVPair),
      storeAt g p (storeAt f p es) = storeAt (fun v => g (f v)) p es
  | _, [] => by simp [storeAt]
  | 0, e :: es => by simp [storeAt]
  | p + 1, e :: es => by simp [storeAt, storeAt_storeAt f g p es]

/-- C15: `accessOrCreate` is idempotent in identity and last-write-wins in time. For
every registry state, key `k` and non-zero deadlines `t1` and `t2`, the three calls
pass their assertions, the registry state after `accessOrCreate(k, t1)` followed by
`accessOrCreate(k, t2)` is the registry state after `accessOrCreate(k, t2)` alone,
and the two final calls return the same result, so they agree on null versus
non-null. -/
theorem accessOrCreate_last_write_wins (r : OutgoingTransferRegistry)
    (k : OutgoingTransferRegistryKey) (t1 t2 : MonotonicTime)
    (ht1 : t1.isZero = false) (ht2 : t2.isZero = false) :
    ∃ (res1 res12 res2 : Option Ptr) (r1 r12 r2 : OutgoingTransferRegistry),
      r.accessOrCreate k t1 = some (res1, r1) ∧
      r1.accessOrCreate k t2 = some (res12, r12) ∧
      r.accessOrCreate k t2 = some (res2, r2) ∧
      r12 = r2 ∧ res12 = res2 ∧ (res12 = none ↔ res2 = none) := by
  cases hp : r.map_.access k with
  | some p =>
    have h1 := OutgoingTransferRegistry.accessOrCreate_hit ht1 hp
    have hp1 : (⟨r.map_.update p (fun v => { v with deadline := t1 })⟩ :
        OutgoingTransferRegistry).map_.access k = some p := by
      simpa [Map.access, Map.update, locate_storeAt] using hp
    refine ⟨_, _, _, _, _, _, h1, OutgoingTransferRegistry.accessOrCreate_hit ht2 hp1,
      OutgoingTransferRegistry.accessOrCreate_hit ht2 hp, ?_, rfl, Iff.rfl⟩
    simp [Map.update, storeAt_storeAt]
  | none =>
    cases hroom : r.map_.hasRoom
    · have h := OutgoingTransferRegistry.accessOrCreate_full ht1 hp hroom
      have h2 := OutgoingTransferRegistry.accessOrCreate_full ht2 hp hroom
      exact ⟨_, _, _, _, _, _, h, h2, h2, rfl, rfl, Iff.rfl⟩
    · have h1 := OutgoingTransferRegistry.accessOrCreate_insert ht1 hp hroom
      have hl : locate k r.map_.entries = none := hp
      have hp1 : (⟨{ r.map_ with
          entries := r.map_.entries ++ [(k, ⟨t1, TransferID.default⟩)] }⟩ :
          OutgoingTransferRegistry).map_.access k = some r.map_.entries.length := by
        simpa [Map.access] using locate_append_of_none _ hl
      refine ⟨_, _, _, _, _, _, h1, OutgoingTransferRegistry.accessOrCreate_hit ht2 hp1,
        OutgoingTransferRegistry.accessOrCreate_insert ht2 hp hroom, ?_, rfl, Iff.rfl⟩
      simp [Map.update, storeAt_length_append]

/-- Witness for C15: creating `exK1` in `exEmpty` with deadline 100, then with 300. -/
theorem accessOrCreate_last_write_wins_witness :
    (⟨100⟩ : MonotonicTime).isZero = false ∧ (⟨300⟩ : MonotonicTime).isZero = false ∧
    ∃ (res1 res12 res2 : Option Ptr) (r1 r12 r2 : OutgoingTransferRegistry),
      exEmpty.accessOrCreate exK1 ⟨100⟩ = some (res1, r1) ∧
      r1.accessOrCreate exK1 ⟨300⟩ = some (res12, r12) ∧
      exEmpty.accessOrCreate exK1 ⟨300⟩ = some (res2, r2) ∧
      r12 = r2 ∧ res12 = res2 ∧ (res12 = none ↔ res2 = none) :=
  ⟨by decide, by decide,
    accessOrCreate_last_write_wins exEmpty exK1 ⟨100⟩ ⟨300⟩ (by decide) (by decide)⟩

/-- C16: the refresh is an unconditional overwrite, not a maximum. For every reachable
registry state holding key `k` with deadline `d` and counter `c`, and every
non-zero `t < d`, `accessOrCreate(k, t)` succeeds and leaves `k` with deadline `t`
and counter `c`; there are timestamps `now` with `t <= now < d`, and for each of
them a following `cleanup(now)` removes the entry of `k`, while the same
`cleanup(now)` before the call keeps it. -/
theorem refresh_overwrites_deadline (r : OutgoingTransferRegistry)
    (k : OutgoingTransferRegistryKey) (d t : MonotonicTime) (c : TransferID)
    (hr : Reachable r) (hk : r.entryOf k = some ⟨d, c⟩) (ht : t.isZero = false)
    (hlt : t.usec < d.usec) :
    ∃ p r1, r.accessOrCreate k t = some (some p, r1) ∧
      r1.entryOf k = some ⟨t, c⟩ ∧
      (∃ now : MonotonicTime, t.usec ≤ now.usec ∧ now.usec < d.usec) ∧
      ∀ now : MonotonicTime, t.usec ≤ now.usec → now.usec < d.usec →
        (∃ r2, r1.cleanup now = some r2 ∧ r2.map_.access k = none ∧
          r2.entryOf k = none) ∧
        (∃ r3, r.cleanup now = some r3 ∧ r3.entryOf k = some ⟨d, c⟩) := by
  obtain ⟨hd, hu⟩ := reachable_inv hr
  obtain ⟨p, hp, -⟩ := entryOf_some_access hk
  have h1 := OutgoingTransferRegistry.accessOrCreate_hit ht hp
  obtain ⟨hd1, hu1⟩ := accessOrCreate_inv hd hu h1
  obtain ⟨-, hacc1, c1, hderef1, hold, -⟩ := accessOrCreate_success h1
  obtain ⟨rfl, -, -⟩ := hold _ hk
  have hent : (⟨r.map_.update p (fun v => { v with deadline := t })⟩ :
      OutgoingTransferRegistry).entryOf k = some ⟨t, c1⟩ := by
    simp [OutgoingTransferRegistry.entryOf, hacc1, hderef1]
  exact ⟨p, _, h1, hent, ⟨t, Nat.le_refl _, hlt⟩, fun now h1n h2n =>
    ⟨cleanup_drops hd1 hu1 hent h1n, cleanup_keeps hd hk h2n⟩⟩

/-- Witness for C16: `exK2` in `exFull` has deadline 200; it is refreshed with 120. -/
theorem refresh_overwrites_deadline_witness :
    Reachable exFull ∧ exFull.entryOf exK2 = some ⟨⟨200⟩, ⟨4⟩⟩ ∧
    (⟨120⟩ : MonotonicTime).isZero = false ∧
    (⟨120⟩ : MonotonicTime).usec < (⟨200⟩ : MonotonicTime).usec ∧
    ∃ p r1, exFull.accessOrCreate exK2 ⟨120⟩ = some (some p, r1) ∧
      r1.entryOf exK2 = some ⟨⟨120⟩, ⟨4⟩⟩ ∧
      (∃ now : MonotonicTime, (⟨120⟩ : MonotonicTime).usec ≤ now.usec ∧
        now.usec < (⟨200⟩ : MonotonicTime).usec) ∧
      ∀ now : MonotonicTime, (⟨120⟩ : MonotonicTime).usec ≤ now.usec →
        now.usec < (⟨200⟩ : MonotonicTime).usec →
        (∃ r2, r1.cleanup now = some r2 ∧ r2.map_.access exK2 = none ∧
          r2.entryOf exK2 = none) ∧
        (∃ r3, exFull.cleanup now = some r3 ∧ r3.entryOf exK2 = some ⟨⟨200⟩, ⟨4⟩⟩) :=
  ⟨⟨2, ⟨0⟩, exCalls, by decide⟩, by decide, by decide, by decide,
    refresh_overwrites_deadline exFull exK2 ⟨200⟩ ⟨120⟩ ⟨4⟩ ⟨2, ⟨0⟩, exCalls, by decide⟩
      (by decide) (by decide) (by decide)⟩

/-! ## The claims on composed sweeps and on the default key -/

theorem MonotonicTime.later_self (a : MonotonicTime) : a.later a = a := by
  cases a
  simp [MonotonicTime.later]

theorem MonotonicTime.later_comm (a b : MonotonicTime) : a.later b = b.later a := by
  simp [MonotonicTime.later, Nat.max_comm]

theorem not_decide_le (x y : Nat) : (!decide (x ≤ y)) = decide (y < x) := by
  by_cases h : x ≤ y
  · simp [h]
  · simp [h, Nat.lt_of_not_le h]

theorem survives_later (a b : MonotonicTime) (e : KVPair) :
    survives (a.later b) e = (survives b e && survives a e) := by
  by_cases h1 : e.2.deadline.usec ≤ a.usec <;> by_cases h2 : e.2.deadline.usec ≤ b.usec <;>
    simp [survives, MonotonicTime.le, MonotonicTime.later, h1, h2]

theorem filter_survives_later (a b : MonotonicTime) (es : List KVPair) :
    (es.filter (survives a)).filter (survives b) = es.filter (survives (a.later b)) := by
  rw [List.filter_filter]
  congr 1
  funext e
  exact (survives_later a b e).symm

/-- On a store that holds an entry with a zero deadline, the assertion of the
predicate fails and `cleanup` does not run to its end. -/
theorem cleanup_eq_none {r : OutgoingTransferRegistry} (ts : MonotonicTime)
    (h : ¬ DeadlinesNonZero r) : r.cleanup ts = none := by
  have hs : sweep (DeadlineExpiredPredicate.call ⟨ts⟩) r.map_.entries = none := by
    cases hsw : sweep (DeadlineExpiredPredicate.call ⟨ts⟩) r.map_.entries with
    | none => rfl
    | some es =>
      exact absurd ((sweep_isSome_iff ts r.map_.entries).1 (by simp [hsw])) h
  simp [OutgoingTransferRegistry.cleanup, Map.removeWhere, hs]

/-- Two sweeps in a row are one sweep at the later timestamp, also when an assertion
fails. -/
theorem cleanup_cleanup (r : OutgoingTransferRegistry) (a b : MonotonicTime) :
    (r.cleanup a).bind (fun r1 => r1.cleanup b) = r.cleanup (a.later b) := by
  by_cases hd : DeadlinesNonZero r
  · have hd1 : DeadlinesNonZero
        ⟨{ r.map_ with entries := r.map_.entries.filter (survives a) }⟩ :=
      fun e he => hd e (List.mem_filter.1 he).1
    rw [OutgoingTransferRegistry.cleanup_eq a hd, OutgoingTransferRegistry.cleanup_eq _ hd,
      Option.some_bind, OutgoingTransferRegistry.cleanup_eq b hd1]
    simp only [filter_survives_later]
  · rw [cleanup_eq_none a hd, cleanup_eq_none _ hd]
    rfl

/-- C17: `cleanup` composes by maximum. (1) For every registry state and timestamps
`a` and `b`, `cleanup(a)` followed by `cleanup(b)` gives the same result as a single
`cleanup` at the later of `a` and `b`. (2) `cleanup(a)` twice is `cleanup(a)` once.
(3) Two sweeps commute. (4) In every reachable registry state all these sweeps pass
their assertions and produce a registry state. -/
theorem cleanup_composes_by_max :
    (∀ (r : OutgoingTransferRegistry) (a b : MonotonicTime),
      (r.cleanup a).bind (fun r1 => r1.cleanup b) = r.cleanup (a.later b)) ∧
    (∀ (r : OutgoingTransferRegistry) (a : MonotonicTime),
      (r.cleanup a).bind (fun r1 => r1.cleanup a) = r.cleanup a) ∧
    (∀ (r : OutgoingTransferRegistry) (a b : MonotonicTime),
      (r.cleanup a).bind (fun r1 => r1.cleanup b) =
        (r.cleanup b).bind (fun r1 => r1.cleanup a)) ∧
    (∀ (r : OutgoingTransferRegistry) (a b : MonotonicTime), Reachable r →
      ∃ r1 r2, r.cleanup a = some r1 ∧ r1.cleanup b = some r2 ∧
        r.cleanup (a.later b) = some r2 ∧
        r2.map_.entries = r.map_.entries.filter
          (fun e => decide (max a.usec b.usec < e.2.deadline.usec))) := by
  refine ⟨cleanup_cleanup, ?_, ?_, ?_⟩
  · intro r a
    rw [cleanup_cleanup, MonotonicTime.later_self]
  · intro r a b
    rw [cleanup_cleanup, cleanup_cleanup, MonotonicTime.later_comm]
  · intro r a b hr
    have hd := (reachable_inv hr).1
    have hd1 : DeadlinesNonZero
        ⟨{ r.map_ with entries := r.map_.entries.filter (survives a) }⟩ :=
      fun e he => hd e (List.mem_filter.1 he).1
    refine ⟨_, _, OutgoingTransferRegistry.cleanup_eq a hd,
      OutgoingTransferRegistry.cleanup_eq b hd1, ?_, ?_⟩
    · rw [OutgoingTransferRegistry.cleanup_eq _ hd]
      simp only [filter_survives_later]
    · have hf : survives (a.later b) =
          fun e => decide (max a.usec b.usec < e.2.deadline.usec) := by
        funext e
        exact not_decide_le _ _
      simp only [filter_survives_later, hf]

/-- Witness for C17: the sweeps at 150 and at 120 on the reachable state `exFull`. -/
theorem cleanup_composes_by_max_witness :
    Reachable exFull ∧
    ∃ r1 r2, exFull.cleanup ⟨150⟩ = some r1 ∧ r1.cleanup ⟨120⟩ = some r2 ∧
      exFull.cleanup ((⟨150⟩ : MonotonicTime).later ⟨120⟩) = some r2 ∧
      r2.map_.entries = exFull.map_.entries.filter
        (fun e => decide (max (⟨150⟩ : MonotonicTime).usec (⟨120⟩ : MonotonicTime).usec
          < e.2.deadline.usec)) :=
  ⟨⟨2, ⟨0⟩, exCalls, by decide⟩,
    cleanup_composes_by_max.2.2.2 exFull ⟨150⟩ ⟨120⟩ ⟨2, ⟨0⟩, exCalls, by decide⟩⟩

/-- C18: the default-constructed key is distinct from every valid key. For every data
type identifier, every transfer type of the enumeration and every destination node
identifier that pass the assertions of the three-argument constructor, the key that
the constructor builds is not equal under `operator==`, on either side, to the
default-constructed key, whose `transfer_type_` is `0xFF`, whatever the default
values of the other two members are. -/
theorem default_key_distinct (d : DataTypeID) (tt : TransferType) (n : NodeID)
    (k : OutgoingTransferRegistryKey) (dd : DataTypeID) (dn : NodeID)
    (h : OutgoingTransferRegistryKey.make d tt n = some k) :
    (OutgoingTransferRegistryKey.mkDefault dd dn).transfer_type_ = 0xFF ∧
    k.beq (OutgoingTransferRegistryKey.mkDefault dd dn) = false ∧
    (OutgoingTransferRegistryKey.mkDefault dd dn).beq k = false := by
  obtain ⟨rfl, -, -⟩ := OutgoingTransferRegistryKey.make_eq_some h
  have hne : (⟨d, tt.toUInt8, n⟩ : OutgoingTransferRegistryKey).transfer_type_ ≠ 0xFF :=
    Nat.ne_of_lt (TransferType.toUInt8_lt tt)
  have hb := OutgoingTransferRegistryKey.beq_mkDefault _ dd dn hne
  refine ⟨rfl, hb, ?_⟩
  rw [OutgoingTransferRegistryKey.beq_comm]
  exact hb

/-- Witness for C18: `exK1` against a default key whose other members agree with
those of `exK1`. -/
theorem default_key_distinct_witness :
    OutgoingTransferRegistryKey.make ⟨10⟩ .TransferTypeMessageBroadcast ⟨0⟩ = some exK1 ∧
    (OutgoingTransferRegistryKey.mkDefault ⟨10⟩ ⟨0⟩).transfer_type_ = 0xFF ∧
    exK1.beq (OutgoingTransferRegistryKey.mkDefault ⟨10⟩ ⟨0⟩) = false ∧
    (OutgoingTransferRegistryKey.mkDefault ⟨10⟩ ⟨0⟩).beq exK1 = false :=
  ⟨by decide,
    default_key_distinct ⟨10⟩ .TransferTypeMessageBroadcast ⟨0⟩ exK1 ⟨10⟩ ⟨0⟩ (by decide)⟩

end uavcan
